import Mathlib

/-!
Shallow embedding of the SYNDI document-storage core
(`src/backend/rawscribe/utils/`), with theorems settling the claims about
field-id escaping, identity generation, filename parsing, document listing,
immutability enforcement, draft cleanup and the attachment workflow.

Python strings are modelled as Lean `String`/`List Char`; Python's `re` word
class `\w` is modelled as ASCII alphanumerics plus underscore; `datetime`
values are modelled abstractly as a wall-clock integer together with an
optional timezone offset; the entropy source (`uuid.uuid4`) and the clock are
passed in explicitly as parameters.
-/

/-- Python substring containment, `needle in hay` (`str.__contains__`). -/
def pyIn (needle hay : String) : Bool :=
  decide (needle.data <:+: hay.data)

/-!
## file_validation.py — field-id escaping (lines 356-368)

`escape_field_id` is Python `field_id.replace('-', '__HYPHEN__')`;
`unescape_field_id` is `escaped.replace('__HYPHEN__', '-')`.  Both are the
left-to-right, non-overlapping scan of `str.replace`, specialised to these
two fixed patterns.
-/

/-- The sentinel `'__HYPHEN__'` as a character list. -/
def hyphenSentinel : List Char :=
  ['_', '_', 'H', 'Y', 'P', 'H', 'E', 'N', '_', '_']

/-- The core letters `'HYPHEN'` of the sentinel. -/
def hyphenCore : List Char := ['H', 'Y', 'P', 'H', 'E', 'N']

/-- `str.replace('-', '__HYPHEN__')` on character lists: every `'-'` becomes
the ten-character sentinel. -/
def escapeChars : List Char → List Char
  | [] => []
  | c :: rest => if c = '-' then hyphenSentinel ++ escapeChars rest
                 else c :: escapeChars rest

/-- Worker for `unescapeChars`: the fuel is an upper bound on the length of the
list, letting the left-to-right scan that jumps over each matched sentinel be
structurally recursive. -/
def unescapeGo : Nat → List Char → List Char
  | 0, l => l
  | _ + 1, [] => []
  | fuel + 1, c :: rest =>
    if hyphenSentinel.isPrefixOf (c :: rest) then
      '-' :: unescapeGo fuel (rest.drop 9)
    else
      c :: unescapeGo fuel rest

/-- `str.replace('__HYPHEN__', '-')` on character lists: the left-to-right
non-overlapping scan replacing each occurrence of the sentinel by `'-'`. -/
def unescapeChars (l : List Char) : List Char := unescapeGo l.length l

/-- The result of `unescapeGo` does not depend on the fuel, as long as the fuel
dominates the length of the list. -/
theorem unescapeGo_fuel :
    ∀ (f : Nat), ∀ (l : List Char), ∀ (g : Nat), l.length ≤ f → l.length ≤ g →
      unescapeGo f l = unescapeGo g l := by
  intro f
  induction f with
  | zero =>
    intro l g hf _
    have : l = [] := List.eq_nil_of_length_eq_zero (Nat.le_zero.mp hf)
    subst this
    cases g <;> rfl
  | succ f ih =>
    intro l g hf hg
    cases l with
    | nil => cases g <;> rfl
    | cons c rest =>
      cases g with
      | zero => simp at hg
      | succ g =>
        show unescapeGo (f + 1) (c :: rest) = unescapeGo (g + 1) (c :: rest)
        rw [unescapeGo, unescapeGo]
        simp only [List.length_cons] at hf hg
        by_cases hp : hyphenSentinel.isPrefixOf (c :: rest) = true
        · rw [if_pos hp, if_pos hp]
          have hlen : (rest.drop 9).length ≤ f := by
            have := List.length_drop 9 rest
            omega
          have hlen' : (rest.drop 9).length ≤ g := by
            have := List.length_drop 9 rest
            omega
          rw [ih (rest.drop 9) g hlen hlen']
        · rw [if_neg hp, if_neg hp]
          rw [ih rest g (by omega) (by omega)]

/-- `file_validation.escape_field_id`. -/
def escape_field_id (field_id : String) : String :=
  (escapeChars field_id.data).asString

/-- `file_validation.unescape_field_id`. -/
def unescape_field_id (escaped_field_id : String) : String :=
  (unescapeChars escaped_field_id.data).asString

theorem escapeChars_cons (c : Char) (rest : List Char) :
    escapeChars (c :: rest) =
      if c = '-' then hyphenSentinel ++ escapeChars rest
      else c :: escapeChars rest := rfl

/-- Unescaping a string that starts with the sentinel consumes the sentinel. -/
theorem unescapeChars_sentinel (t : List Char) :
    unescapeChars (hyphenSentinel ++ t) = '-' :: unescapeChars t := by
  have hpre : hyphenSentinel.isPrefixOf (hyphenSentinel ++ t) = true :=
    List.isPrefixOf_iff_prefix.mpr (List.prefix_append _ _)
  show unescapeGo (hyphenSentinel ++ t).length (hyphenSentinel ++ t) = _
  have hlen : (hyphenSentinel ++ t).length = t.length + 10 := by
    simp [hyphenSentinel]
  rw [hlen]
  show unescapeGo (t.length + 9 + 1)
      ('_' :: ('_' :: 'H' :: 'Y' :: 'P' :: 'H' :: 'E' :: 'N' :: '_' :: '_' :: t)) = _
  rw [unescapeGo]
  rw [show ('_' :: ('_' :: 'H' :: 'Y' :: 'P' :: 'H' :: 'E' :: 'N' :: '_' :: '_' :: t))
      = hyphenSentinel ++ t from rfl, if_pos hpre]
  have hdrop : (('_' :: 'H' :: 'Y' :: 'P' :: 'H' :: 'E' :: 'N' :: '_' :: '_' :: t).drop 9)
      = t := rfl
  rw [hdrop]
  rw [unescapeGo_fuel (t.length + 9) t t.length (by omega) (by omega)]
  rfl

/-- Unescaping steps over a head that does not begin a sentinel occurrence. -/
theorem unescapeChars_cons_ne (c : Char) (rest : List Char)
    (h : ¬ hyphenSentinel <+: (c :: rest)) :
    unescapeChars (c :: rest) = c :: unescapeChars rest := by
  have hp : hyphenSentinel.isPrefixOf (c :: rest) ≠ true := by
    intro hcon
    exact h (List.isPrefixOf_iff_prefix.mp hcon)
  show unescapeGo (c :: rest).length (c :: rest) = _
  rw [show (c :: rest).length = rest.length + 1 from rfl, unescapeGo, if_neg hp]
  rfl

/-- If the image of `escapeChars` starts with a character other than `'_'`,
that character was the head of the source. -/
theorem escape_head_ne (a : Char) (ha : a ≠ '_') (m xs : List Char)
    (h : escapeChars m = a :: xs) : ∃ m', m = a :: m' ∧ escapeChars m' = xs := by
  cases m with
  | nil => simp [escapeChars] at h
  | cons d m' =>
    rw [escapeChars_cons] at h
    by_cases hd : d = '-'
    · rw [if_pos hd] at h
      simp [hyphenSentinel] at h
      exact absurd h.1.symm ha
    · rw [if_neg hd] at h
      obtain ⟨h1, h2⟩ := List.cons.inj h
      exact ⟨m', by rw [h1], h2⟩

/-- Prefix version of `escape_head_ne`. -/
theorem escape_pref_head (a : Char) (ha : a ≠ '_') (p m : List Char)
    (h : (a :: p) <+: escapeChars m) :
    ∃ m', m = a :: m' ∧ p <+: escapeChars m' := by
  obtain ⟨t, ht⟩ := h
  obtain ⟨m', hm', he⟩ := escape_head_ne a ha m (p ++ t) (by rw [← ht]; simp)
  exact ⟨m', hm', ⟨t, by rw [he]⟩⟩

/-- If the sentinel is a prefix of `escapeChars (c :: m)` with `c ≠ '-'`,
then `c :: m` contains the letters `HYPHEN`. -/
theorem sentinel_pref_escape (c : Char) (hc : c ≠ '-') (m : List Char)
    (h : hyphenSentinel <+: escapeChars (c :: m)) : hyphenCore <:+: (c :: m) := by
  rw [escapeChars_cons, if_neg hc] at h
  have h0 : hyphenSentinel = '_' ::
      ('_' :: 'H' :: 'Y' :: 'P' :: 'H' :: 'E' :: 'N' :: '_' :: '_' :: []) := rfl
  rw [h0, List.cons_prefix_cons] at h
  obtain ⟨hcu, h⟩ := h
  -- now ['_','H','Y','P','H','E','N','_','_'] <+: escapeChars m
  cases m with
  | nil =>
    simp [escapeChars] at h
  | cons d m' =>
    rw [escapeChars_cons] at h
    by_cases hd : d = '-'
    · rw [if_pos hd] at h
      have h1 : hyphenSentinel = '_' :: '_' ::
          ('H' :: 'Y' :: 'P' :: 'H' :: 'E' :: 'N' :: '_' :: '_' :: []) := rfl
      rw [h1] at h
      simp only [List.cons_append, List.cons_prefix_cons] at h
      exact absurd h.2.1 (by decide)
    · rw [if_neg hd] at h
      rw [List.cons_prefix_cons] at h
      obtain ⟨hdu, h⟩ := h
      obtain ⟨m2, hm2, h⟩ := escape_pref_head 'H' (by decide) _ m' h
      obtain ⟨m3, hm3, h⟩ := escape_pref_head 'Y' (by decide) _ m2 h
      obtain ⟨m4, hm4, h⟩ := escape_pref_head 'P' (by decide) _ m3 h
      obtain ⟨m5, hm5, h⟩ := escape_pref_head 'H' (by decide) _ m4 h
      obtain ⟨m6, hm6, h⟩ := escape_pref_head 'E' (by decide) _ m5 h
      obtain ⟨m7, hm7, _⟩ := escape_pref_head 'N' (by decide) _ m6 h
      refine ⟨[c, d], m7, ?_⟩
      subst hm2 hm3 hm4 hm5 hm6 hm7
      simp [hyphenCore]

/-- Round trip on character lists: if the source contains no occurrence of the
letters `HYPHEN`, unescaping after escaping restores it. -/
theorem unescape_escape_of_nocore :
    ∀ m : List Char, ¬ hyphenCore <:+: m → unescapeChars (escapeChars m) = m := by
  intro m
  induction m with
  | nil => intro _; rfl
  | cons c m' ih =>
    intro hno
    have hno' : ¬ hyphenCore <:+: m' := fun h => hno (List.infix_cons h)
    rw [escapeChars_cons]
    by_cases hc : c = '-'
    · rw [if_pos hc, unescapeChars_sentinel, ih hno', hc]
    · rw [if_neg hc]
      have hnp : ¬ hyphenSentinel <+: (c :: escapeChars m') := by
        intro hpref
        have : hyphenSentinel <+: escapeChars (c :: m') := by
          rw [escapeChars_cons, if_neg hc]; exact hpref
        exact hno (sentinel_pref_escape c hc m' this)
      rw [unescapeChars_cons_ne c _ hnp, ih hno']

/-- C6 counterexample input: contains a hyphen and the literal sentinel. -/
def c6BadFieldId : String := "-__HYPHEN__"

/-- C6: claim as stated is false: for the field id `"-__HYPHEN__"` (which
contains a hyphen and also the literal sentinel substring), unescaping after
escaping yields `"--"`, not the original id. -/
theorem C6_counterexample :
    c6BadFieldId.data.contains '-' = true ∧
    unescape_field_id (escape_field_id c6BadFieldId) = "--" ∧
    unescape_field_id (escape_field_id c6BadFieldId) ≠ c6BadFieldId := by
  refine ⟨by decide, by decide, by decide⟩

/-- C6 (amended): for every field id containing at least one hyphen and not
containing the letter sequence `HYPHEN`, `unescape_field_id` after
`escape_field_id` restores the id. -/
theorem C6_escape_roundtrip (field_id : String)
    (hhyp : field_id.data.contains '-' = true)
    (hno : ¬ hyphenCore <:+: field_id.data) :
    unescape_field_id (escape_field_id field_id) = field_id := by
  unfold unescape_field_id escape_field_id
  rw [show (escapeChars field_id.data).asString.data = escapeChars field_id.data from rfl,
    unescape_escape_of_nocore field_id.data hno]
  cases field_id
  rfl

/-- C6 witness: the amended round trip evaluated at `"field-1-a"`. -/
theorem C6_escape_roundtrip_witness :
    unescape_field_id (escape_field_id "field-1-a") = "field-1-a" :=
  C6_escape_roundtrip "field-1-a" (by decide) (by decide)

/-!
## schema_utils.py — `normalize_filename_value` (lines 100-130)

The Python pipeline is: `str(value).strip()`, `re.sub(r'[^\w._]', '_', ·)`,
`.replace('-', '_')`, `re.sub(r'_+', '_', ·)`, `.strip('_')`, `[:50]`,
`.lower()`; the empty string is returned unchanged.  `\w` is modelled as
ASCII alphanumerics plus underscore.
-/

/-- Python's `\w` character class (ASCII fragment). -/
def pyIsWordChar (c : Char) : Bool := c.isAlphanum || c = '_'

/-- Python `str.strip`: drop characters satisfying `p` from both ends. -/
def stripChars (p : Char → Bool) (l : List Char) : List Char :=
  ((l.dropWhile p).reverse.dropWhile p).reverse

/-- `re.sub(r'_+', '_', ·)`: collapse each run of underscores to a single
underscore.  The scan keeps the last underscore of each run, which produces
the same string as keeping the first. -/
def collapseUnderscores : List Char → List Char
  | [] => []
  | c :: rest =>
    if c = '_' ∧ rest.head? = some '_' then collapseUnderscores rest
    else c :: collapseUnderscores rest

/-- `schema_utils.normalize_filename_value`. -/
def normalize_filename_value (value : String) : String :=
  if value = "" then ""
  else
    let n1 := stripChars Char.isWhitespace value.data
    let n2 := n1.map (fun c => if pyIsWordChar c || c = '.' then c else '_')
    let n3 := n2.map (fun c => if c = '-' then '_' else c)
    let n4 := collapseUnderscores n3
    let n5 := stripChars (fun c => c = '_') n4
    let n6 := n5.take 50
    (n6.map Char.toLower).asString

/-!
## filename_generator.py — `FilenameGenerator` (lines 24-208)

The entropy source (`uuid.uuid4`) is modelled as a stream `draws : Nat →
String` of the values `str(uuid.uuid4())` would produce, and the clock as an
explicit `timestamp` string argument.  `max_uuid_retries` defaults to 10 in
the constructor.  A raised `FilenameGenerationError`/`UUIDCollisionError` is
modelled as `none`.
-/

/-- `str(uuid.uuid4()).replace('-', '')[:8]`. -/
def shortUuidOfDraw (full_uuid : String) : String :=
  ((full_uuid.data.filter (fun c => c ≠ '-')).take 8).asString

/-- The retry loop of `FilenameGenerator._generate_8char_uuid`, carrying the
current attempt index and the remaining budget; the second component of the
result is the total number of candidates drawn. -/
def gen8Aux (draws : Nat → String) (collision_checker : String → Bool) :
    Nat → Nat → Option String × Nat
  | attempt, 0 => (none, attempt)
  | attempt, remaining + 1 =>
    let cand := shortUuidOfDraw (draws attempt)
    if collision_checker cand then gen8Aux draws collision_checker (attempt + 1) remaining
    else (some cand, attempt + 1)

/-- `FilenameGenerator._generate_8char_uuid`: draw up to `max_uuid_retries`
candidates; `none` models the raised `UUIDCollisionError`. -/
def generate_8char_uuid (max_uuid_retries : Nat) (draws : Nat → String)
    (collision_checker : String → Bool) : Option String × Nat :=
  gen8Aux draws collision_checker 0 max_uuid_retries

/-- `FilenameGenerator.generate_temp_file_id`: same retry loop, with a
collision checker that defers to the optional `existing_checker` and reports
no collision when none is supplied. -/
def generate_temp_file_id (max_uuid_retries : Nat) (draws : Nat → String)
    (existing_checker : Option (String → Bool)) : Option String × Nat :=
  generate_8char_uuid max_uuid_retries draws
    (fun file_id =>
      match existing_checker with
      | some ck => ck file_id
      | none => false)

/-- `'-'.join(parts)` on character lists. -/
def joinDash : List (List Char) → List Char
  | [] => []
  | [p] => p
  | p :: ps => p ++ '-' :: joinDash ps

/-- `'-'.join(parts) + '.json'` for string parts. -/
def filenameFromParts (parts : List String) : String :=
  (joinDash (parts.map String.data) ++ ".json".data).asString

/-- The filename assembled by both `_generate_unique_uuid`'s collision probe
and `generate_filename`'s final construction:
`[status, username] + filename_vars + [timestamp, uuid]`, dash-joined, plus
`.json`. -/
def mkElnFilename (status username : String) (filename_vars : List String)
    (timestamp uuid : String) : String :=
  filenameFromParts ([status, username] ++ filename_vars ++ [timestamp, uuid])

/-- `FilenameGenerator._generate_unique_uuid`. -/
def generate_unique_uuid (status username : String) (filename_vars : List String)
    (timestamp : String) (existing_checker : Option (String → Bool))
    (draws : Nat → String) (max_uuid_retries : Nat) : Option String × Nat :=
  let collision_checker : String → Bool := fun short_uuid =>
    match existing_checker with
    | none => false
    | some ck => ck (mkElnFilename status username filename_vars timestamp short_uuid)
  generate_8char_uuid max_uuid_retries draws collision_checker

/-- Variable processing in `FilenameGenerator.generate_filename` (lines
64-79): a variable that is non-empty after stripping is normalized; an
empty one falls back to the same-index field id (normalized) when present,
and to the literal `"empty"` otherwise. -/
def processVarsAux (field_ids : List String) : Nat → List String → List String
  | _, [] => []
  | i, var :: rest =>
    (if var ≠ "" ∧ (stripChars Char.isWhitespace var.data) ≠ [] then
        normalize_filename_value var
     else
        match field_ids[i]? with
        | some fid => normalize_filename_value fid
        | none => "empty")
    :: processVarsAux field_ids (i + 1) rest

/-- All processed filename variables, in order. -/
def processFilenameVars (filename_variables field_ids : List String) : List String :=
  processVarsAux field_ids 0 filename_variables

/-- `FilenameGenerator.generate_filename`.  A `field_ids` of `[]` models the
Python default `field_ids or []`; `none` models a raised
`FilenameGenerationError` (invalid status) or `UUIDCollisionError`
(collision budget exhausted). -/
def generate_filename (max_uuid_retries : Nat) (status username : String)
    (filename_variables field_ids : List String) (timestamp : String)
    (draws : Nat → String) (existing_checker : Option (String → Bool)) :
    Option String :=
  if status ≠ "draft" ∧ status ≠ "final" then none
  else
    let filename_vars := processFilenameVars filename_variables field_ids
    let normalized_username := normalize_filename_value username
    match (generate_unique_uuid status normalized_username filename_vars timestamp
        existing_checker draws max_uuid_retries).1 with
    | none => none
    | some unique_uuid =>
      some (mkElnFilename status normalized_username filename_vars timestamp unique_uuid)

/-!
## eln_filename_utils.py — `parse_eln_filename` (lines 20-61)

Removes the `.json` extension, splits on `'-'`, and reads
`status = parts[0]`, `username = parts[1]`, `timestamp = parts[-2]`,
`uuid = parts[-1]`, `variables = parts[2:-2] if len(parts) > 4 else []`;
fewer than 4 parts (or a missing extension) raises
`FilenameGenerationError`, modelled as `none`.
-/

/-- `str.split('-')` on character lists (always returns at least one part). -/
def splitOnDash : List Char → List (List Char)
  | [] => [[]]
  | c :: rest =>
    if c = '-' then [] :: splitOnDash rest
    else
      match splitOnDash rest with
      | [] => [[c]]
      | h :: t => (c :: h) :: t

/-- Parsed filename components. -/
structure ParsedFilename where
  status : String
  username : String
  /-- the Python result key 'variables' -/
  vars : List String
  timestamp : String
  uuid : String
  full_filename : String
deriving DecidableEq

/-- `eln_filename_utils.parse_eln_filename`.  `parts[-1]`/`parts[-2]` are
modelled via `getLast`, and `parts[2:-2]` by dropping the first two and last
two elements, which agree with Python's indexing for the guarded lengths. -/
def parse_eln_filename (filename : String) : Option ParsedFilename :=
  if ".json".data.isSuffixOf filename.data then
    let base := filename.data.take (filename.data.length - 5)
    let parts := (splitOnDash base).map List.asString
    if parts.length < 4 then none
    else some {
      status := parts.getD 0 ""
      username := parts.getD 1 ""
      vars := if 4 < parts.length then ((parts.drop 2).dropLast).dropLast else []
      timestamp := parts.dropLast.getLastD ""
      uuid := parts.getLastD ""
      full_filename := filename }
  else none

/-- `document_utils.extract_uuid_from_filename`. -/
def extract_uuid_from_filename (filename : String) : Option String :=
  (parse_eln_filename filename).map (fun p => p.uuid)

/-- `document_utils.generate_filename_and_uuid`: generate a filename with a
fresh default generator (`max_uuid_retries = 10`, no existence checker) and
re-extract its uuid component by parsing. -/
def generate_filename_and_uuid (status user_id : String)
    (filename_variables field_ids : List String) (timestamp : String)
    (draws : Nat → String) : Option (String × String) :=
  match generate_filename 10 status user_id filename_variables field_ids timestamp
      draws none with
  | none => none
  | some filename =>
    match extract_uuid_from_filename filename with
    | none => none
    | some uuid => some (filename, uuid)

/-- When every candidate collides, the retry loop consumes its whole budget
and reports exhaustion. -/
theorem gen8Aux_all_collide (draws : Nat → String) (checker : String → Bool)
    (h : ∀ s, checker s = true) :
    ∀ (remaining attempt : Nat),
      gen8Aux draws checker attempt remaining = (none, attempt + remaining) := by
  intro remaining
  induction remaining with
  | zero => intro attempt; rfl
  | succ r ih =>
    intro attempt
    rw [gen8Aux]
    simp only [h (shortUuidOfDraw (draws attempt)), if_true]
    rw [ih (attempt + 1)]
    congr 1
    omega

/-- The retry loop returns the first non-colliding candidate. -/
theorem gen8Aux_first_success (draws : Nat → String) (checker : String → Bool) :
    ∀ (i r attempt : Nat), i < r →
      checker (shortUuidOfDraw (draws (attempt + i))) = false →
      (∀ j, j < i → checker (shortUuidOfDraw (draws (attempt + j))) = true) →
      gen8Aux draws checker attempt r =
        (some (shortUuidOfDraw (draws (attempt + i))), attempt + i + 1) := by
  intro i
  induction i with
  | zero =>
    intro r attempt hr hfalse _
    cases r with
    | zero => omega
    | succ r' =>
      rw [gen8Aux]
      simp only [Nat.add_zero] at hfalse
      simp [hfalse]
  | succ i ih =>
    intro r attempt hr hfalse hprev
    cases r with
    | zero => omega
    | succ r' =>
      rw [gen8Aux]
      have h0 : checker (shortUuidOfDraw (draws attempt)) = true := by
        have := hprev 0 (by omega)
        simpa using this
      simp only [h0, if_true]
      have hfalse' : checker (shortUuidOfDraw (draws (attempt + 1 + i))) = false := by
        have : attempt + 1 + i = attempt + (i + 1) := by omega
        rw [this]; exact hfalse
      have hprev' : ∀ j, j < i →
          checker (shortUuidOfDraw (draws (attempt + 1 + j))) = true := by
        intro j hj
        have : attempt + 1 + j = attempt + (j + 1) := by omega
        rw [this]
        exact hprev (j + 1) (by omega)
      rw [ih r' (attempt + 1) (by omega) hfalse' hprev']
      have : attempt + 1 + i = attempt + (i + 1) := by omega
      rw [this]

/-- C3: with an existence predicate that reports a collision on every
candidate, `_generate_8char_uuid` (hence `generate_filename` and
`generate_temp_file_id`) draws exactly `max_uuid_retries` candidates and then
raises `UUIDCollisionError` (modelled as `none`) instead of returning a value;
and whenever the predicate first reports no collision for the candidate drawn
on attempt `i` within the budget, the loop returns exactly that candidate
after `i + 1` draws. -/
theorem C3_collision_budget (max_uuid_retries : Nat) (draws : Nat → String)
    (collision_checker existing_checker : String → Bool)
    (status username timestamp : String) (filename_variables field_ids : List String) :
    ((∀ s, collision_checker s = true) →
      generate_8char_uuid max_uuid_retries draws collision_checker =
        (none, max_uuid_retries)) ∧
    ((∀ s, existing_checker s = true) →
      generate_temp_file_id max_uuid_retries draws (some existing_checker) =
        (none, max_uuid_retries)) ∧
    ((∀ s, existing_checker s = true) →
      generate_filename max_uuid_retries status username filename_variables field_ids
        timestamp draws (some existing_checker) = none) ∧
    (∀ i, i < max_uuid_retries →
      collision_checker (shortUuidOfDraw (draws i)) = false →
      (∀ j, j < i → collision_checker (shortUuidOfDraw (draws j)) = true) →
      generate_8char_uuid max_uuid_retries draws collision_checker =
        (some (shortUuidOfDraw (draws i)), i + 1)) := by
  refine ⟨?_, ?_, ?_, ?_⟩
  · intro h
    unfold generate_8char_uuid
    rw [gen8Aux_all_collide draws collision_checker h max_uuid_retries 0]
    simp
  · intro h
    unfold generate_temp_file_id generate_8char_uuid
    rw [gen8Aux_all_collide _ _ (fun s => h s) max_uuid_retries 0]
    simp
  · intro h
    have hex : ∀ (nu : String) (fv : List String),
        generate_unique_uuid status nu fv timestamp (some existing_checker) draws
          max_uuid_retries = (none, max_uuid_retries) := by
      intro nu fv
      unfold generate_unique_uuid generate_8char_uuid
      rw [gen8Aux_all_collide _ _ (fun s => h _) max_uuid_retries 0]
      simp
    unfold generate_filename
    by_cases hs : status ≠ "draft" ∧ status ≠ "final"
    · rw [if_pos hs]
    · rw [if_neg hs]
      simp only [hex]
  · intro i hi hfalse hprev
    unfold generate_8char_uuid
    have := gen8Aux_first_success draws collision_checker i max_uuid_retries 0 hi
      (by simpa using hfalse) (by simpa using hprev)
    simpa using this

/-- C3 witness: with the default budget of 10 and an always-colliding
predicate, generation of a short id, a temp-file id and a filename all
report exhaustion; with a predicate that accepts the first candidate, the
first candidate is returned after one draw. -/
theorem C3_collision_budget_witness :
    generate_8char_uuid 10 (fun _ => "abcd1234-5678-90ab-cdef-1234567890ab")
      (fun _ => true) = (none, 10) ∧
    generate_temp_file_id 10 (fun _ => "abcd1234-5678-90ab-cdef-1234567890ab")
      (some (fun _ => true)) = (none, 10) ∧
    generate_filename 10 "final" "alice" ["p1"] [] "20250101_120000"
      (fun _ => "abcd1234-5678-90ab-cdef-1234567890ab") (some (fun _ => true)) = none ∧
    generate_8char_uuid 10 (fun _ => "abcd1234-5678-90ab-cdef-1234567890ab")
      (fun s => s != "abcd1234") = (some "abcd1234", 1) := by
  refine ⟨?_, ?_, ?_, ?_⟩
  · exact (C3_collision_budget 10 _ (fun _ => true) (fun _ => true) "final" "alice"
      "20250101_120000" ["p1"] []).1 (fun _ => rfl)
  · exact (C3_collision_budget 10 _ (fun _ => true) (fun _ => true) "final" "alice"
      "20250101_120000" ["p1"] []).2.1 (fun _ => rfl)
  · exact (C3_collision_budget 10 _ (fun _ => true) (fun _ => true) "final" "alice"
      "20250101_120000" ["p1"] []).2.2.1 (fun _ => rfl)
  · exact (C3_collision_budget 10 _ (fun s => s != "abcd1234") (fun _ => true) "final"
      "alice" "20250101_120000" ["p1"] []).2.2.2 0 (by omega) (by decide)
      (fun j hj => absurd hj (by omega))

/-- `Char.ofNat` evaluates to the given code point when it is valid. -/
theorem toNat_ofNat_valid (n : Nat) (h : n.isValidChar) :
    (Char.ofNat n).toNat = n := by
  rw [Char.ofNat, dif_pos h]
  rfl

/-- Lower-casing never produces a hyphen from a non-hyphen. -/
theorem toLower_ne_dash (c : Char) (h : c ≠ '-') : Char.toLower c ≠ '-' := by
  have hdef : Char.toLower c =
      if c.toNat ≥ 65 ∧ c.toNat ≤ 90 then Char.ofNat (c.toNat + 32) else c := rfl
  rw [hdef]
  split
  · rename_i hcond
    intro heq
    have h1 : (Char.ofNat (c.toNat + 32)).toNat = c.toNat + 32 :=
      toNat_ofNat_valid _ (Or.inl (by omega))
    rw [heq] at h1
    have h2 : ('-' : Char).toNat = 45 := rfl
    omega
  · exact h

/-- Every character surviving `stripChars` occurs in the input. -/
theorem mem_of_mem_stripChars (p : Char → Bool) (l : List Char) (a : Char)
    (h : a ∈ stripChars p l) : a ∈ l := by
  unfold stripChars at h
  rw [List.mem_reverse] at h
  have h1 := (List.dropWhile_sublist p).mem h
  rw [List.mem_reverse] at h1
  exact (List.dropWhile_sublist p).mem h1

/-- Every character surviving `collapseUnderscores` occurs in the input. -/
theorem mem_of_mem_collapse (l : List Char) (a : Char)
    (h : a ∈ collapseUnderscores l) : a ∈ l := by
  induction l with
  | nil => simp [collapseUnderscores] at h
  | cons c rest ih =>
    rw [collapseUnderscores] at h
    split at h
    · exact List.mem_cons_of_mem c (ih h)
    · rcases List.mem_cons.mp h with h | h
      · exact h ▸ List.mem_cons_self _ _
      · exact List.mem_cons_of_mem c (ih h)

/-- No character of a normalized filename value is a hyphen. -/
theorem normalize_no_dash (s : String) :
    ∀ c ∈ (normalize_filename_value s).data, c ≠ '-' := by
  intro c hc
  unfold normalize_filename_value at hc
  split at hc
  · simp at hc
  · simp only [show ∀ l : List Char, l.asString.data = l from fun _ => rfl] at hc
    rw [List.mem_map] at hc
    obtain ⟨d, hd, hdc⟩ := hc
    have hd5 := List.mem_of_mem_take hd
    have hd4 := mem_of_mem_stripChars _ _ _ hd5
    have hd3 := mem_of_mem_collapse _ _ hd4
    rw [List.mem_map] at hd3
    obtain ⟨e, _, hed⟩ := hd3
    have hdnd : d ≠ '-' := by
      rw [← hed]
      by_cases he : e = '-'
      · rw [if_pos he]; decide
      · rw [if_neg he]; exact he
    rw [← hdc]
    exact toLower_ne_dash d hdnd

/-- Each processed filename variable is hyphen-free. -/
theorem processVars_no_dash (field_ids : List String) :
    ∀ (i : Nat) (fvars : List String), ∀ v ∈ processVarsAux field_ids i fvars,
      ∀ c ∈ v.data, c ≠ '-' := by
  intro i fvars
  induction fvars generalizing i with
  | nil => intro v hv; simp [processVarsAux] at hv
  | cons var rest ih =>
    intro v hv
    rw [processVarsAux] at hv
    rcases List.mem_cons.mp hv with h | h
    · subst h
      split
      · exact normalize_no_dash var
      · split
        · exact normalize_no_dash _
        · decide
    · exact ih (i + 1) v h

/-- A successful draw is the short form of one of the stream's values. -/
theorem gen8Aux_some_shape (draws : Nat → String) (checker : String → Bool) :
    ∀ (r attempt : Nat) (u : String) (k : Nat),
      gen8Aux draws checker attempt r = (some u, k) →
      ∃ a, u = shortUuidOfDraw (draws a) := by
  intro r
  induction r with
  | zero => intro attempt u k h; simp [gen8Aux] at h
  | succ r ih =>
    intro attempt u k h
    rw [gen8Aux] at h
    split at h
    · exact ih (attempt + 1) u k h
    · exact ⟨attempt, (Option.some.inj (Prod.mk.inj h).1).symm⟩

/-- Dropping the two final singletons of an append restores the front part. -/
theorem dropLast_append₂ {α : Type} (V : List α) (t u : α) :
    ((V ++ [t, u]).dropLast).dropLast = V := by
  rw [show V ++ [t, u] = (V ++ [t]) ++ [u] by simp, List.dropLast_concat,
    List.dropLast_concat]

/-- Short uuids contain no hyphen. -/
theorem shortUuid_no_dash (s : String) :
    ∀ c ∈ (shortUuidOfDraw s).data, c ≠ '-' := by
  intro c hc
  unfold shortUuidOfDraw at hc
  simp only [show ∀ l : List Char, l.asString.data = l from fun _ => rfl] at hc
  have := List.mem_of_mem_take hc
  rw [List.mem_filter] at this
  simpa using this.2

/-- Splitting a hyphen-free string yields the single original part. -/
theorem splitOnDash_no_dash : ∀ l : List Char, '-' ∉ l → splitOnDash l = [l] := by
  intro l
  induction l with
  | nil => intro _; rfl
  | cons c rest ih =>
    intro h
    have hc : c ≠ '-' := fun hc => h (hc ▸ List.mem_cons_self _ _)
    have hrest : '-' ∉ rest := fun hr => h (List.mem_cons_of_mem _ hr)
    rw [splitOnDash, if_neg hc, ih hrest]

/-- Splitting distributes over a leading hyphen-free part. -/
theorem splitOnDash_append (p t : List Char) (hp : '-' ∉ p) :
    splitOnDash (p ++ '-' :: t) = p :: splitOnDash t := by
  induction p with
  | nil =>
    rw [List.nil_append, splitOnDash, if_pos rfl]
  | cons c p' ih =>
    have hc : c ≠ '-' := fun hc => hp (hc ▸ List.mem_cons_self _ _)
    have hp' : '-' ∉ p' := fun hr => hp (List.mem_cons_of_mem _ hr)
    rw [List.cons_append, splitOnDash, if_neg hc, ih hp']

theorem joinDash_cons₂ (p q : List Char) (ps : List (List Char)) :
    joinDash (p :: q :: ps) = p ++ '-' :: joinDash (q :: ps) := rfl

/-- Splitting a dash-join of hyphen-free parts restores the parts. -/
theorem splitOnDash_joinDash :
    ∀ ps : List (List Char), ps ≠ [] → (∀ p ∈ ps, '-' ∉ p) →
      splitOnDash (joinDash ps) = ps := by
  intro ps
  induction ps with
  | nil => intro h _; exact absurd rfl h
  | cons p ps ih =>
    intro _ hnd
    cases ps with
    | nil =>
      exact splitOnDash_no_dash p (hnd p (List.mem_cons_self _ _))
    | cons q rest =>
      rw [joinDash_cons₂, splitOnDash_append p _ (hnd p (List.mem_cons_self _ _)),
        ih (by simp) (fun x hx => hnd x (List.mem_cons_of_mem _ hx))]

/-- Parsing a filename assembled from hyphen-free components recovers exactly
those components. -/
theorem parse_mkElnFilename (status username : String) (V : List String) (t u : String)
    (hs : ∀ c ∈ status.data, c ≠ '-') (hn : ∀ c ∈ username.data, c ≠ '-')
    (hV : ∀ v ∈ V, ∀ c ∈ v.data, c ≠ '-')
    (ht : ∀ c ∈ t.data, c ≠ '-') (hu : ∀ c ∈ u.data, c ≠ '-') :
    parse_eln_filename (mkElnFilename status username V t u) =
      some ⟨status, username, V, t, u, mkElnFilename status username V t u⟩ := by
  have parts_eq : ([status, username] ++ V ++ [t, u]).map String.data =
      [status.data, username.data] ++ V.map String.data ++ [t.data, u.data] := by
    simp
  have hnodash : ∀ p ∈ ([status, username] ++ V ++ [t, u]).map String.data, '-' ∉ p := by
    rw [parts_eq]
    intro p hp
    intro hdash
    rcases List.mem_append.mp hp with hp | hp
    · rcases List.mem_append.mp hp with hp | hp
      · rcases List.mem_cons.mp hp with hp | hp
        · exact hs '-' (hp ▸ hdash) rfl
        · rcases List.mem_cons.mp hp with hp | hp
          · exact hn '-' (hp ▸ hdash) rfl
          · simp at hp
      · rw [List.mem_map] at hp
        obtain ⟨v, hv, hvp⟩ := hp
        exact hV v hv '-' (hvp ▸ hdash) rfl
    · rcases List.mem_cons.mp hp with hp | hp
      · exact ht '-' (hp ▸ hdash) rfl
      · rcases List.mem_cons.mp hp with hp | hp
        · exact hu '-' (hp ▸ hdash) rfl
        · simp at hp
  have key : splitOnDash (joinDash (([status, username] ++ V ++ [t, u]).map String.data)) =
      ([status, username] ++ V ++ [t, u]).map String.data :=
    splitOnDash_joinDash _ (by simp) hnodash
  have hfndata : (mkElnFilename status username V t u).data =
      joinDash (([status, username] ++ V ++ [t, u]).map String.data) ++ ".json".data := rfl
  have hsuf : (".json".data).isSuffixOf (mkElnFilename status username V t u).data = true := by
    rw [hfndata]
    exact List.isSuffixOf_iff_suffix.mpr (List.suffix_append _ _)
  have hbase : (mkElnFilename status username V t u).data.take
      ((mkElnFilename status username V t u).data.length - 5) =
      joinDash (([status, username] ++ V ++ [t, u]).map String.data) := by
    rw [hfndata, List.length_append]
    rw [show (".json".data).length = 5 from rfl]
    rw [Nat.add_sub_cancel, List.take_left]
  have hback : (([status, username] ++ V ++ [t, u]).map String.data).map List.asString =
      [status, username] ++ V ++ [t, u] := by
    rw [List.map_map]
    exact List.map_id _
  rw [parse_eln_filename, if_pos hsuf, hbase]
  simp only [key, hback]
  have hlen : ([status, username] ++ V ++ [t, u]).length = V.length + 4 := by
    simp
  rw [if_neg (by rw [hlen]; omega)]
  congr 1
  have hgd0 : ([status, username] ++ V ++ [t, u]).getD 0 "" = status := rfl
  have hgd1 : ([status, username] ++ V ++ [t, u]).getD 1 "" = username := rfl
  have hassoc : [status, username] ++ V ++ [t, u] =
      (([status, username] ++ V) ++ [t]) ++ [u] := by simp
  have hlast : ([status, username] ++ V ++ [t, u]).getLastD "" = u := by
    rw [hassoc, List.getLastD_concat]
  have hts : (([status, username] ++ V ++ [t, u]).dropLast).getLastD "" = t := by
    rw [hassoc, List.dropLast_concat, List.getLastD_concat]
  have hvars : (if 4 < ([status, username] ++ V ++ [t, u]).length then
      ((([status, username] ++ V ++ [t, u]).drop 2).dropLast).dropLast else []) = V := by
    cases V with
    | nil => rw [if_neg (by simp)]
    | cons v0 Vr =>
      rw [if_pos (by rw [hlen]; simp)]
      rw [show ([status, username] ++ (v0 :: Vr) ++ [t, u]).drop 2 =
        (v0 :: Vr) ++ [t, u] from rfl]
      exact dropLast_append₂ _ _ _
  rw [hgd0, hgd1, hlast, hts, hvars]

/-- C4: every filename produced by `generate_filename` (either status, any
username, any variables with optional fallback field ids — including inputs
normalizing to empty components) parses back to exactly the status, the
normalized username, the processed variables in order, the timestamp, and the
short id used to construct it. -/
theorem C4_generate_parse_roundtrip (max_uuid_retries : Nat)
    (status username timestamp : String) (filename_variables field_ids : List String)
    (draws : Nat → String) (existing_checker : Option (String → Bool)) (fn : String)
    (hts : ∀ c ∈ timestamp.data, c ≠ '-')
    (hgen : generate_filename max_uuid_retries status username filename_variables
      field_ids timestamp draws existing_checker = some fn) :
    ∃ u, fn = mkElnFilename status (normalize_filename_value username)
        (processFilenameVars filename_variables field_ids) timestamp u ∧
      parse_eln_filename fn =
        some ⟨status, normalize_filename_value username,
          processFilenameVars filename_variables field_ids, timestamp, u, fn⟩ := by
  unfold generate_filename at hgen
  split at hgen
  · exact absurd hgen (by simp)
  · rename_i hstat
    have hsd : status = "draft" ∨ status = "final" := by
      by_contra hcon
      push_neg at hcon
      exact hstat ⟨hcon.1, hcon.2⟩
    simp only [] at hgen
    split at hgen
    · exact absurd hgen (by simp)
    · rename_i u hequ
      have hfn : fn = mkElnFilename status (normalize_filename_value username)
          (processFilenameVars filename_variables field_ids) timestamp u :=
        (Option.some.inj hgen).symm
      obtain ⟨a, hua⟩ : ∃ a, u = shortUuidOfDraw (draws a) := by
        unfold generate_unique_uuid generate_8char_uuid at hequ
        simp only [] at hequ
        exact gen8Aux_some_shape draws _ max_uuid_retries 0 u _ (Prod.ext hequ rfl)
      have hu : ∀ c ∈ u.data, c ≠ '-' := by
        rw [hua]; exact shortUuid_no_dash (draws a)
      have hsd' : ∀ c ∈ status.data, c ≠ '-' := by
        rcases hsd with h | h <;> subst h <;> decide
      refine ⟨u, hfn, ?_⟩
      rw [hfn]
      exact parse_mkElnFilename status (normalize_filename_value username) _ timestamp u
        hsd' (normalize_no_dash username)
        (fun v hv => processVars_no_dash field_ids 0 filename_variables v hv)
        hts hu

/-- C4 witness: a concrete generation with an empty-normalizing variable
(`"---"`), a fallback field id, and an empty variable, parsed back exactly. -/
theorem C4_generate_parse_roundtrip_witness :
    ∃ u, ("draft-bob_2-field_one--x_y-20250102_030405-abcd1234.json" : String) =
        mkElnFilename "draft" (normalize_filename_value "Bob-2")
          (processFilenameVars ["", "---", "x y"] ["field-one"]) "20250102_030405" u ∧
      parse_eln_filename "draft-bob_2-field_one--x_y-20250102_030405-abcd1234.json" =
        some ⟨"draft", normalize_filename_value "Bob-2",
          processFilenameVars ["", "---", "x y"] ["field-one"], "20250102_030405", u,
          "draft-bob_2-field_one--x_y-20250102_030405-abcd1234.json"⟩ :=
  C4_generate_parse_roundtrip 10 "draft" "Bob-2" "20250102_030405" ["", "---", "x y"]
    ["field-one"] (fun _ => "abcd1234-5678-90ab-cdef-1234567890ab") none
    "draft-bob_2-field_one--x_y-20250102_030405-abcd1234.json"
    (by decide) (by decide)

/-!
## C9 — claim-side and amended-side models of normalization

`normalizeClaimed` is written from the claim's general wording ("lower-cases,
collapses runs of non-word characters and hyphens to single underscores,
strips leading/trailing underscores, and truncates to 50 characters"), to be
compared with `normalize_filename_value` above.  `normalizeAmendedSpec` is an
independently implemented pipeline following the amended wording.
-/

/-- Collapse each maximal run of characters satisfying `p` to one `'_'`. -/
def collapseRunsToUnderscore (p : Char → Bool) : List Char → List Char
  | [] => []
  | c :: rest =>
    if p c && (match rest.head? with | some d => p d | none => false) then
      collapseRunsToUnderscore p rest
    else
      (if p c then '_' else c) :: collapseRunsToUnderscore p rest

/-- Modelled from the claim's general description of normalization (for the
counterexample): lower-case, collapse runs of non-word characters and hyphens
to single underscores, strip leading/trailing underscores, truncate to 50
characters; empty input maps to itself. -/
def normalizeClaimed (value : String) : String :=
  if value = "" then ""
  else
    let l1 := value.data.map Char.toLower
    let l2 := collapseRunsToUnderscore (fun c => !(pyIsWordChar c) || c = '-') l1
    let l3 := stripChars (fun c => c = '_') l2
    (l3.take 50).asString

/-- C9: the claim's general description of normalization is false on the code:
periods are preserved by `normalize_filename_value` but the claimed collapse
of non-word characters would map `"a.b"` to `"a_b"`. -/
theorem C9_counterexample :
    normalize_filename_value "a.b" = "a.b" ∧
    normalizeClaimed "a.b" = "a_b" ∧
    normalize_filename_value "a.b" ≠ normalizeClaimed "a.b" := by
  refine ⟨by decide, by decide, by decide⟩

/-- Drop the longest suffix of characters satisfying `p` (via `foldr`). -/
def dropTrailWhile (p : Char → Bool) (l : List Char) : List Char :=
  l.foldr (fun c acc => if acc = [] ∧ p c then [] else c :: acc) []

/-- One-pass underscore-run collapse carrying a "previous kept char opened an
underscore run" flag. -/
def collapseSpecGo : Bool → List Char → List Char
  | _, [] => []
  | prev, c :: rest =>
    if c = '_' then
      (if prev then collapseSpecGo true rest else '_' :: collapseSpecGo true rest)
    else c :: collapseSpecGo false rest

/-- The amended description of `normalize_filename_value`, implemented
independently: strip surrounding whitespace; replace each character that is
neither a word character nor a period (hyphens included) by an underscore;
collapse runs of underscores; strip leading and trailing underscores;
truncate to 50 characters; lower-case; empty input maps to itself. -/
def normalizeAmendedSpec (value : String) : String :=
  if value = "" then ""
  else
    let s1 := dropTrailWhile Char.isWhitespace (value.data.dropWhile Char.isWhitespace)
    let s2 := s1.map (fun c =>
      if c = '-' then '_' else if pyIsWordChar c || c = '.' then c else '_')
    let s3 := collapseSpecGo false s2
    let s4 := dropTrailWhile (fun c => c = '_') (s3.dropWhile (fun c => c = '_'))
    (s4.take 50).map Char.toLower |>.asString

/-- `dropTrailWhile` agrees with reverse-dropWhile-reverse. -/
theorem dropTrailWhile_eq (p : Char → Bool) :
    ∀ l : List Char, dropTrailWhile p l = (l.reverse.dropWhile p).reverse := by
  intro l
  induction l with
  | nil => rfl
  | cons c rest ih =>
    have hstep : dropTrailWhile p (c :: rest) =
        if dropTrailWhile p rest = [] ∧ p c then [] else c :: dropTrailWhile p rest := rfl
    rw [hstep, List.reverse_cons, List.dropWhile_append]
    by_cases hX : rest.reverse.dropWhile p = []
    · rw [hX]
      simp only [List.isEmpty_nil, if_true]
      have hdt : dropTrailWhile p rest = [] := by rw [ih, hX]; rfl
      by_cases hc : p c
      · rw [if_pos ⟨hdt, hc⟩]
        simp [List.dropWhile, hc]
      · rw [if_neg (fun hand => hc hand.2)]
        rw [hdt]
        simp [List.dropWhile, hc]
    · have hne : (rest.reverse.dropWhile p).isEmpty = false := by
        simp [List.isEmpty_iff, hX]
      rw [hne]
      simp only [Bool.false_eq_true, if_false]
      have hdt : dropTrailWhile p rest ≠ [] := by
        rw [ih]
        intro hcon
        apply hX
        have := congrArg List.reverse hcon
        simpa using this
      rw [if_neg (fun hand => hdt hand.1), ih, List.reverse_append]
      simp

/-- The code's two-sided strip equals a leading strip followed by a
trailing strip. -/
theorem stripChars_eq (p : Char → Bool) (l : List Char) :
    stripChars p l = dropTrailWhile p (l.dropWhile p) := by
  rw [dropTrailWhile_eq]
  rfl

/-- `collapseUnderscores` on a leading underscore run. -/
theorem collapse_run (rest : List Char) :
    collapseUnderscores ('_' :: rest) =
      '_' :: collapseUnderscores (rest.dropWhile (fun c => c = '_')) := by
  induction rest with
  | nil => rfl
  | cons d rest' ih =>
    by_cases hd : d = '_'
    · subst hd
      have h1 : collapseUnderscores ('_' :: '_' :: rest') =
          collapseUnderscores ('_' :: rest') := by
        rw [collapseUnderscores]
        rw [if_pos ⟨rfl, rfl⟩]
      rw [h1, ih, List.dropWhile_cons]
      rw [if_pos (by decide)]
    · rw [collapseUnderscores,
        if_neg (fun h => hd (Option.some.inj (h.2 : (d :: rest').head? = some '_')))]
      rw [List.dropWhile_cons, if_neg (by simpa using hd)]

/-- The one-pass collapse agrees with the code's collapse. -/
theorem collapseSpecGo_eq :
    ∀ l : List Char,
      collapseSpecGo false l = collapseUnderscores l ∧
      collapseSpecGo true l = collapseUnderscores (l.dropWhile (fun c => c = '_')) := by
  intro l
  induction l with
  | nil => exact ⟨rfl, rfl⟩
  | cons c rest ih =>
    constructor
    · by_cases hc : c = '_'
      · subst hc
        rw [collapseSpecGo, if_pos rfl, if_neg (by simp), ih.2, ← collapse_run]
      · rw [collapseSpecGo, if_neg hc, ih.1]
        rw [collapseUnderscores, if_neg (fun h => hc h.1)]
    · by_cases hc : c = '_'
      · subst hc
        rw [collapseSpecGo, if_pos rfl, if_pos rfl, ih.2, List.dropWhile_cons,
          if_pos (by decide)]
      · rw [collapseSpecGo, if_neg hc, ih.1, List.dropWhile_cons, if_neg (by simp [hc])]
        rw [collapseUnderscores, if_neg (fun h => hc h.1)]

/-- C9 (amended): `normalize("PROJ-001") = "proj_001"`; `normalize("") = ""`;
a raw-empty (or whitespace-only) filename variable with no fallback id becomes
the literal `"empty"` in `generate_filename`'s variable processing; and in
general normalization strips surrounding whitespace, replaces every character
other than word characters and periods (hyphens included) with an underscore,
collapses runs of underscores, strips leading/trailing underscores, truncates
to 50 characters and lower-cases — periods and single underscores are
preserved. -/
theorem C9_normalization_amended :
    normalize_filename_value "PROJ-001" = "proj_001" ∧
    normalize_filename_value "" = "" ∧
    processFilenameVars [""] [] = ["empty"] ∧
    processFilenameVars ["   "] [] = ["empty"] ∧
    ∀ value : String, normalize_filename_value value = normalizeAmendedSpec value := by
  refine ⟨by decide, by decide, by decide, by decide, ?_⟩
  intro value
  unfold normalize_filename_value normalizeAmendedSpec
  by_cases hv : value = ""
  · rw [if_pos hv, if_pos hv]
  · rw [if_neg hv, if_neg hv]
    have hstrip1 : dropTrailWhile Char.isWhitespace (value.data.dropWhile Char.isWhitespace)
        = stripChars Char.isWhitespace value.data := (stripChars_eq _ _).symm
    have hmap : ∀ l : List Char,
        (l.map (fun c => if pyIsWordChar c || c = '.' then c else '_')).map
          (fun c => if c = '-' then '_' else c) =
        l.map (fun c => if c = '-' then '_' else
          if pyIsWordChar c || c = '.' then c else '_') := by
      intro l
      rw [List.map_map]
      apply List.map_congr_left
      intro c _
      show (fun c => if c = '-' then '_' else c)
          ((fun c => if pyIsWordChar c || c = '.' then c else '_') c) = _
      by_cases h2 : c = '-'
      · subst h2; decide
      · by_cases h1 : (pyIsWordChar c || c = '.') = true
        · simp only [if_pos h1, if_neg h2]
        · simp only [if_neg h1, if_neg h2]
          decide
    have hcol : ∀ l, collapseSpecGo false l = collapseUnderscores l :=
      fun l => (collapseSpecGo_eq l).1
    have hstrip2 : ∀ l, dropTrailWhile (fun c => c = '_')
        (l.dropWhile (fun c => c = '_')) = stripChars (fun c => c = '_') l :=
      fun l => (stripChars_eq _ l).symm
    simp only [hstrip1, hmap, hcol, hstrip2]

/-!
## storage_factory.py `StorageManager._create_backend` (lines 28-40) and
## storage_base.py immutability enforcement (lines 130-157)

`StorageManager` builds one backend for all document types, passing
`document_type="drafts"` to the constructor for both the `s3` and the `local`
backend.  `_validate_storage_constraints` performs the pre-write existence
check only when the *instance's* `self.document_type` equals
`"submissions"`; `_store_document` raises `ImmutableStorageError` when the
check fails and otherwise writes (replacing any existing content at the
key).  The JSON store is modelled as an association list of keys to
serialized content.
-/

/-- The slice of backend state relevant to constraint checking. -/
structure BackendModel where
  document_type : String
deriving DecidableEq

/-- `StorageManager._create_backend`: both supported backend types are
constructed with `document_type="drafts"`; any other type raises
`ValueError` (`none`). -/
def create_backend (backend_type : String) : Option BackendModel :=
  if backend_type = "s3" then some { document_type := "drafts" }
  else if backend_type = "local" then some { document_type := "drafts" }
  else none

/-- `BaseJSONStorage._validate_storage_constraints`. -/
def validate_storage_constraints (self_document_type : String)
    (key_exists : Bool) : Bool :=
  if self_document_type = "submissions" then !key_exists else true

/-- Write to the store, replacing any existing content at the key. -/
def putKey (store : List (String × String)) (key content : String) :
    List (String × String) :=
  store.filter (fun kv => !(kv.1 == key)) ++ [(key, content)]

/-- Read back the content stored at a key. -/
def lookupKey (store : List (String × String)) (key : String) : Option String :=
  (store.find? (fun kv => kv.1 == key)).map (fun kv => kv.2)

/-- `_document_exists` on the modelled store. -/
def keyExists (store : List (String × String)) (key : String) : Bool :=
  (store.find? (fun kv => kv.1 == key)).isSome

/-- `BaseJSONStorage._store_document`: validate constraints against the
instance's own `document_type`, raise `ImmutableStorageError` on violation,
otherwise serialize and store. -/
def store_document (self_document_type : String) (store : List (String × String))
    (key content : String) : Except String (List (String × String)) :=
  if !(validate_storage_constraints self_document_type (keyExists store key)) then
    .error "ImmutableStorageError"
  else
    .ok (putKey store key content)

/-- Writing then reading the same key returns the new content. -/
theorem lookupKey_putKey (store : List (String × String)) (key content : String) :
    lookupKey (putKey store key content) key = some content := by
  unfold lookupKey putKey
  rw [List.find?_append]
  have hnone : (store.filter (fun kv => !(kv.1 == key))).find?
      (fun kv => kv.1 == key) = none := by
    rw [List.find?_eq_none]
    intro kv hkv
    have := (List.mem_filter.mp hkv).2
    simp at this
    simp [this]
  rw [hnone]
  simp [List.find?]

/-- C1 (code behaviour): every backend the production `StorageManager`
factory can construct carries `document_type = "drafts"`, so
`_store_document` never performs the submissions immutability check: storing
a final document at an already-existing key succeeds and silently replaces
the stored content instead of raising `ImmutableStorageError`.  Had the
backend carried `document_type = "submissions"` (as the unit tests construct
it directly), the same write would raise. -/
theorem C1_manager_overwrites_existing_final (backend_type : String)
    (b : BackendModel) (hb : create_backend backend_type = some b)
    (store : List (String × String)) (key content : String)
    (hex : keyExists store key = true) :
    b.document_type = "drafts" ∧
    store_document b.document_type store key content = .ok (putKey store key content) ∧
    lookupKey (putKey store key content) key = some content ∧
    store_document "submissions" store key content = .error "ImmutableStorageError" := by
  have hbd : b.document_type = "drafts" := by
    unfold create_backend at hb
    by_cases h1 : backend_type = "s3"
    · rw [if_pos h1] at hb
      rw [← Option.some.inj hb]
    · rw [if_neg h1] at hb
      by_cases h2 : backend_type = "local"
      · rw [if_pos h2] at hb
        rw [← Option.some.inj hb]
      · rw [if_neg h2] at hb
        exact absurd hb (by simp)
  refine ⟨hbd, ?_, lookupKey_putKey store key content, ?_⟩
  · rw [hbd]
    unfold store_document validate_storage_constraints
    simp
  · unfold store_document validate_storage_constraints
    rw [hex]
    simp

/-- C1 witness: a concrete overwrite of an existing submissions key through
the factory-constructed backend. -/
theorem C1_manager_overwrites_existing_final_witness :
    store_document "drafts"
      [("submissions/SOP-001/final-u-p-20240101_000000-aaaa1111.json", "old")]
      "submissions/SOP-001/final-u-p-20240101_000000-aaaa1111.json" "new" =
      .ok (putKey [("submissions/SOP-001/final-u-p-20240101_000000-aaaa1111.json", "old")]
        "submissions/SOP-001/final-u-p-20240101_000000-aaaa1111.json" "new") ∧
    store_document "submissions"
      [("submissions/SOP-001/final-u-p-20240101_000000-aaaa1111.json", "old")]
      "submissions/SOP-001/final-u-p-20240101_000000-aaaa1111.json" "new" =
      .error "ImmutableStorageError" := by
  have h := C1_manager_overwrites_existing_final "local" ⟨"drafts"⟩ (by decide)
    [("submissions/SOP-001/final-u-p-20240101_000000-aaaa1111.json", "old")]
    "submissions/SOP-001/final-u-p-20240101_000000-aaaa1111.json" "new" (by decide)
  exact ⟨h.2.1, h.2.2.2⟩

/-!
## storage_base.py `cleanup_old_drafts` (lines 508-534)

The module imports `from datetime import datetime, timezone` (line 14) —
`timedelta` is never imported, so the first statement of the `try` block,
`cutoff_date = datetime.now(timezone.utc) - timedelta(days=retention_days)`,
raises `NameError` at run time; the enclosing `except Exception` logs the
error and returns `0`, so no draft is ever deleted.  Timestamps are modelled
as abstract instants (seconds); per-draft retrieval failure is modelled by
`loadable`.
-/

/-- Whether the name `timedelta` is bound in the `storage_base` module —
it is not (module imports, storage_base.py lines 10-16). -/
def timedeltaImportedInStorageBase : Bool := false

/-- A stored draft as seen by the cleanup sweep. -/
structure DraftDoc where
  key : String
  /-- whether `_retrieve_document` succeeds for this draft -/
  loadable : Bool
  /-- abstract instant; `none` models a document missing its `timestamp`
  field, defaulted to the current time by `document.get` -/
  timestamp : Option Int
deriving DecidableEq

/-- The per-draft loop of the intended cleanup body: deletes loadable drafts
older than the cutoff, counts them, and skips (but keeps) drafts that fail
to load. -/
def cleanupSweep (now cutoff : Int) : List DraftDoc → Nat × List DraftDoc
  | [] => (0, [])
  | d :: rest =>
    let r := cleanupSweep now cutoff rest
    if d.loadable then
      if (d.timestamp.getD now) < cutoff then (r.1 + 1, r.2)
      else (r.1, d :: r.2)
    else (r.1, d :: r.2)

/-- `BaseJSONStorage.cleanup_old_drafts`: the intended body is guarded by the
availability of `timedelta`; since the name is unbound, the `NameError` is
swallowed by the outer `except` and the function returns 0 without deleting
anything. -/
def cleanup_old_drafts (drafts : List DraftDoc) (now retention_days : Int) :
    Nat × List DraftDoc :=
  if timedeltaImportedInStorageBase then
    let cutoff := now - retention_days * 86400
    cleanupSweep now cutoff drafts
  else
    (0, drafts)

/-- C2 (code behaviour): `cleanup_old_drafts` always returns a deleted count
of 0 and deletes nothing — the `timedelta` reference raises `NameError`,
swallowed by the enclosing `except` — even for a draft strictly older than
the cutoff, which the intended sweep would have deleted. -/
theorem C2_cleanup_always_returns_zero :
    (∀ (drafts : List DraftDoc) (now retention_days : Int),
      cleanup_old_drafts drafts now retention_days = (0, drafts)) ∧
    cleanup_old_drafts [⟨"drafts/S1/old.json", true, some 0⟩] 864000 1 = (0, [⟨"drafts/S1/old.json", true, some 0⟩]) ∧
    cleanupSweep 864000 (864000 - 1 * 86400) [⟨"drafts/S1/old.json", true, some 0⟩] = (1, []) := by
  refine ⟨?_, by decide, by decide⟩
  intro drafts now retention_days
  unfold cleanup_old_drafts timedeltaImportedInStorageBase
  simp

/-!
## metadata.py and storage_base.py `list_documents` (lines 264-332)

A Python `datetime` is modelled as a wall-clock instant (`wall`, in seconds)
together with an optional timezone offset; `document_utils.safe_timestamp_key`
maps a timezone-naive timestamp to the same instant read as UTC
(`replace(tzinfo=utc)`), and an aware one to its absolute instant.  A stored
draft document (a JSON dict) is modelled by `RawDoc` with `Option` fields for
keys that may be absent; `datetime.fromisoformat` round-trips through the
abstract timestamp.  Floats (`completion_percentage`) are carried as exact
rationals (they are only stored, never computed with).  Python's stable
`list.sort(key=safe_timestamp_key, reverse=True)` is modelled by a stable
descending insertion sort.
-/

/-- Abstract `datetime`: wall-clock seconds plus optional tz offset. -/
structure PyTimestamp where
  wall : Int
  tzoffset : Option Int
deriving DecidableEq

/-- `document_utils.safe_timestamp_key` applied to an item's timestamp:
naive timestamps are read as UTC. -/
def safe_timestamp_key (ts : PyTimestamp) : Int :=
  ts.wall - (ts.tzoffset.getD 0)

/-- A stored draft document (`None`-able JSON keys as `Option`). -/
structure RawDoc where
  draft_id : Option String
  draft_uuid : Option String
  user_id : Option String
  sop_id : Option String
  session_id : Option String
  status : Option String
  filename : Option String
  timestamp : Option PyTimestamp
  completion_percentage : Option Rat
  title : Option String
  size_bytes : Option Int
deriving DecidableEq

/-- `metadata.DraftMetadata` (the fields used by listing and submission). -/
structure DraftMetadata where
  draft_id : String
  sop_id : String
  user_id : String
  session_id : String
  timestamp : PyTimestamp
  completion_percentage : Rat
  title : Option String
  size_bytes : Int
  /-- the stored `_draft_uuid` -/
  draft_uuid_stored : Option String
deriving DecidableEq

/-- `DraftMetadata.from_dict`: `draft_id`, `sop_id`, `user_id`, `session_id`
and `timestamp` are mandatory (`KeyError`, caught by the listing loop, is
`none`); the rest use `.get` defaults. -/
def DraftMetadata.from_dict (d : RawDoc) : Option DraftMetadata :=
  match d.draft_id, d.sop_id, d.user_id, d.session_id, d.timestamp with
  | some di, some si, some ui, some sess, some ts =>
    some { draft_id := di, sop_id := si, user_id := ui, session_id := sess,
           timestamp := ts,
           completion_percentage := d.completion_percentage.getD 0,
           title := d.title, size_bytes := d.size_bytes.getD 0,
           draft_uuid_stored := d.draft_uuid }
  | _, _, _, _, _ => none

/-- The `DraftMetadata.draft_uuid` property: the stored value when truthy,
otherwise the last dash-separated part of `draft_id`. -/
def DraftMetadata.draft_uuid (m : DraftMetadata) : String :=
  match m.draft_uuid_stored with
  | some u =>
    if u ≠ "" then u else ((splitOnDash m.draft_id.data).getLastD []).asString
  | none => ((splitOnDash m.draft_id.data).getLastD []).asString

/-- Python truthiness of an `Optional[str]`. -/
def truthyStr (o : Option String) : Bool :=
  match o with
  | some s => s ≠ ""
  | none => false

/-- Python truthiness of an `Optional[List[str]]`. -/
def truthyList (o : Option (List String)) : Bool :=
  match o with
  | some l => !l.isEmpty
  | none => false

/-- `all(i < len(doc_variables) and doc_variables[i] == var for i, var in
enumerate(filename_variables))`. -/
def varsMatchAux : List String → List String → Bool
  | [], _ => true
  | _ :: _, [] => false
  | v :: vs, d :: ds => (d == v) && varsMatchAux vs ds

/-- The filter-and-project body of the `list_documents` loop: user and status
filters (skipped for falsy arguments), the optional filename-variable filter
(parse failure skips the document), then `metadata_class.from_dict`
(failure skips the document). -/
def listFilterProject (user_id status : Option String)
    (filename_variables : Option (List String)) (doc : RawDoc) :
    Option DraftMetadata :=
  if truthyStr user_id && !(doc.user_id == user_id) then none
  else if truthyStr status && !(doc.status == status) then none
  else if truthyList filename_variables then
    match parse_eln_filename (doc.filename.getD "") with
    | none => none
    | some parsed =>
      if varsMatchAux (filename_variables.getD []) parsed.vars then
        DraftMetadata.from_dict doc
      else none
  else DraftMetadata.from_dict doc

/-- Stable descending insertion by `safe_timestamp_key`. -/
def insertDesc (x : DraftMetadata) : List DraftMetadata → List DraftMetadata
  | [] => [x]
  | y :: ys =>
    if safe_timestamp_key y.timestamp ≤ safe_timestamp_key x.timestamp then
      x :: y :: ys
    else y :: insertDesc x ys

/-- `items.sort(key=safe_timestamp_key, reverse=True)`: stable, newest
first. -/
def sortDescByTimestamp : List DraftMetadata → List DraftMetadata
  | [] => []
  | x :: xs => insertDesc x (sortDescByTimestamp xs)

/-- Python slice `items[:n]` (negative stops count from the end). -/
def pySliceTake (n : Int) (l : List DraftMetadata) : List DraftMetadata :=
  if 0 ≤ n then l.take n.toNat else l.take ((l.length + n).toNat)

/-- `if limit: items = items[:limit]` — `None` and `0` are falsy and leave
the list untruncated. -/
def applyLimit (limit : Option Int) (l : List DraftMetadata) : List DraftMetadata :=
  match limit with
  | none => l
  | some n => if n ≠ 0 then pySliceTake n l else l

/-- `BaseJSONStorage.list_documents` for `metadata_class=DraftMetadata`:
filter, project, sort newest-first, truncate. -/
def list_documents (docs : List RawDoc) (user_id status : Option String)
    (limit : Option Int) (filename_variables : Option (List String)) :
    List DraftMetadata :=
  applyLimit limit
    (sortDescByTimestamp (docs.filterMap (listFilterProject user_id status filename_variables)))

/-- Newest-first ordering on metadata items. -/
def newestFirst (a b : DraftMetadata) : Prop :=
  safe_timestamp_key b.timestamp ≤ safe_timestamp_key a.timestamp

theorem insertDesc_perm (x : DraftMetadata) (l : List DraftMetadata) :
    (insertDesc x l).Perm (x :: l) := by
  induction l with
  | nil => exact List.Perm.refl _
  | cons y ys ih =>
    rw [insertDesc]
    split
    · exact List.Perm.refl _
    · exact (ih.cons y).trans (List.Perm.swap x y ys)

theorem sortDesc_perm (l : List DraftMetadata) :
    (sortDescByTimestamp l).Perm l := by
  induction l with
  | nil => exact List.Perm.refl _
  | cons x xs ih =>
    rw [sortDescByTimestamp]
    exact (insertDesc_perm x (sortDescByTimestamp xs)).trans (ih.cons x)

theorem insertDesc_pairwise (x : DraftMetadata) (l : List DraftMetadata)
    (h : l.Pairwise newestFirst) : (insertDesc x l).Pairwise newestFirst := by
  induction l with
  | nil => simp [insertDesc, newestFirst]
  | cons y ys ih =>
    rw [insertDesc]
    rcases List.pairwise_cons.mp h with ⟨hy, hys⟩
    split
    · rename_i hle
      rw [List.pairwise_cons]
      refine ⟨?_, h⟩
      intro z hz
      rcases List.mem_cons.mp hz with rfl | hz
      · exact hle
      · exact le_trans (hy z hz) hle
    · rename_i hgt
      rw [List.pairwise_cons]
      refine ⟨?_, ih hys⟩
      intro z hz
      have hz' := (insertDesc_perm x ys).mem_iff.mp hz
      rcases List.mem_cons.mp hz' with rfl | hz'
      · exact le_of_lt (lt_of_not_le hgt)
      · exact hy z hz'

theorem sortDesc_pairwise (l : List DraftMetadata) :
    (sortDescByTimestamp l).Pairwise newestFirst := by
  induction l with
  | nil => exact List.Pairwise.nil
  | cons x xs ih =>
    rw [sortDescByTimestamp]
    exact insertDesc_pairwise x _ ih

/-- Concrete stored draft for the C7 instances. -/
def c7doc (ts : Int) (id : String) : RawDoc :=
  { draft_id := some id, draft_uuid := some "aaaaaaaa", user_id := some "u1",
    sop_id := some "S1", session_id := some "sess", status := some "draft",
    filename := some (id ++ ".json"), timestamp := some ⟨ts, none⟩,
    completion_percentage := none, title := none, size_bytes := none }

/-- Metadata projection of `c7doc`. -/
def c7meta (ts : Int) (id : String) : DraftMetadata :=
  { draft_id := id, sop_id := "S1", user_id := "u1", session_id := "sess",
    timestamp := ⟨ts, none⟩, completion_percentage := 0, title := none,
    size_bytes := 0, draft_uuid_stored := some "aaaaaaaa" }

/-- C7: the claim as stated fails at `limit = 0`: `0` is falsy in
`if limit:`, so the list is returned untruncated rather than cut to its
first 0 elements. -/
theorem C7_counterexample :
    list_documents [c7doc 100 "d1", c7doc 200 "d2"] none none (some 0) none =
      [c7meta 200 "d2", c7meta 100 "d1"] ∧
    list_documents [c7doc 100 "d1", c7doc 200 "d2"] none none (some 0) none ≠ [] := by
  refine ⟨by decide, by decide⟩

/-- C7 (amended): the listing is the metadata projection of the filtered
documents sorted by `safe_timestamp_key` newest-first (strictly descending
when the projected keys are pairwise distinct; ties keep their relative
order per Python's stable sort); a positive limit `n` truncates to the first
`n` elements of that sorted sequence (limit 0, being falsy, does not
truncate); for timestamps `T1 < T2 < T3` the result is `[T3, T2, T1]`. -/
theorem C7_listing_sorted_desc (docs : List RawDoc) (user_id status : Option String)
    (filename_variables : Option (List String)) :
    (list_documents docs user_id status none filename_variables).Pairwise newestFirst ∧
    (list_documents docs user_id status none filename_variables).Perm
      (docs.filterMap (listFilterProject user_id status filename_variables)) ∧
    (((list_documents docs user_id status none filename_variables).map
        (fun m => safe_timestamp_key m.timestamp)).Nodup →
      (list_documents docs user_id status none filename_variables).Pairwise
        (fun a b => safe_timestamp_key b.timestamp < safe_timestamp_key a.timestamp)) ∧
    (∀ n : Int, 0 < n →
      list_documents docs user_id status (some n) filename_variables =
        (list_documents docs user_id status none filename_variables).take n.toNat) ∧
    list_documents [c7doc 100 "d1", c7doc 200 "d2", c7doc 300 "d3"] none none none none =
      [c7meta 300 "d3", c7meta 200 "d2", c7meta 100 "d1"] := by
  refine ⟨sortDesc_pairwise _, sortDesc_perm _, ?_, ?_, by decide⟩
  · intro hnodup
    have h1 := sortDesc_pairwise
      (docs.filterMap (listFilterProject user_id status filename_variables))
    rw [List.Nodup, List.pairwise_map] at hnodup
    have h2 := h1.and hnodup
    exact h2.imp (fun hab => lt_of_le_of_ne hab.1 (Ne.symm hab.2))
  · intro n hn
    have key : ∀ l : List DraftMetadata, applyLimit (some n) l = l.take n.toNat := by
      intro l
      show (if n ≠ 0 then pySliceTake n l else l) = l.take n.toNat
      rw [if_pos (by omega : n ≠ 0)]
      show (if 0 ≤ n then l.take n.toNat else _) = _
      rw [if_pos (le_of_lt hn)]
    show applyLimit (some n) _ = _
    rw [key]
    rfl

/-- C7 witness: the take-equality and the strict-descent hypothesis
discharged on the three-document instance. -/
theorem C7_listing_sorted_desc_witness :
    list_documents [c7doc 100 "d1", c7doc 200 "d2", c7doc 300 "d3"] none none
      (some 2) none =
      (list_documents [c7doc 100 "d1", c7doc 200 "d2", c7doc 300 "d3"] none none
        none none).take 2 ∧
    (list_documents [c7doc 100 "d1", c7doc 200 "d2", c7doc 300 "d3"] none none
        none none).Pairwise
      (fun a b => safe_timestamp_key b.timestamp < safe_timestamp_key a.timestamp) := by
  constructor
  · exact (C7_listing_sorted_desc [c7doc 100 "d1", c7doc 200 "d2", c7doc 300 "d3"]
      none none none).2.2.2.1 2 (by omega)
  · exact (C7_listing_sorted_desc [c7doc 100 "d1", c7doc 200 "d2", c7doc 300 "d3"]
      none none none).2.2.1 (by decide)

/-!
## document_utils.py `prepare_document` (lines 59-109) and
## storage_factory.py `StorageManager.save_document` (lines 82-171)

The `form_data` payload, `sop_metadata` and `field_definitions` are opaque
type parameters (they are stored verbatim); `calculate_checksum` is an opaque
function parameter.  `sop_metadata or {}` / `field_definitions or []` are
modelled by keeping the `Option`, with `none` standing for the supplied
default.  The value returned is the document handed to `_store_document`.
-/

/-- The document envelope assembled by `prepare_document`. -/
structure PreparedDoc (α β γ : Type) where
  draft_id : String
  draft_uuid : String
  filename : String
  sop_id : String
  user_id : String
  timestamp : PyTimestamp
  form_data : α
  status : String
  session_id : Option String
  at_context : Option String
  at_type : Option String
  eln_uuid : Option String
  sop_metadata : Option β
  field_definitions : Option γ
  checksum : Option String
deriving DecidableEq

/-- `document_utils.prepare_document`. -/
def prepare_document {α β γ : Type} (document_uuid filename sop_id user_id status : String)
    (timestamp : PyTimestamp) (data : α) (is_draft : Bool)
    (session_id : Option String)
    (sop_metadata : Option β) (field_definitions : Option γ)
    (checksum : Option String) (draft_uuid draft_id : Option String) :
    PreparedDoc α β γ :=
  let base : PreparedDoc α β γ :=
    { draft_id := draft_id.getD "", draft_uuid := draft_uuid.getD "",
      filename := filename, sop_id := sop_id, user_id := user_id,
      timestamp := timestamp, form_data := data, status := status,
      session_id := none, at_context := none, at_type := none,
      eln_uuid := none, sop_metadata := none, field_definitions := none,
      checksum := none }
  if is_draft then
    { base with
      draft_id :=
        if (".json".data).isSuffixOf filename.data then
          (filename.data.take (filename.data.length - 5)).asString
        else filename,
      draft_uuid := document_uuid,
      session_id := some (session_id.getD "default") }
  else
    { base with
      at_context := some "https://schema.org", at_type := some "Dataset",
      eln_uuid := some document_uuid,
      sop_metadata := sop_metadata,
      field_definitions := field_definitions,
      checksum := some (checksum.getD "") }

/-- `StorageManager.save_document` for `document_type='submissions'`
composed with `BaseJSONStorage.save_document`: status defaults to
`'final'`; the most recent draft for the same user and SOP is looked up via
the newest-first listing, its `draft_uuid`/`draft_id` are threaded into
`prepare_document` (empty when no draft exists); `none` models a raised
generation error. -/
def manager_save_submission {α β γ : Type} (draftsStore : List RawDoc)
    (sop_id user_id : String) (filename_variables field_ids : List String)
    (data : α) (session_id : Option String)
    (sop_metadata : Option β) (field_definitions : Option γ)
    (timestamp : PyTimestamp) (ts_string : String) (draws : Nat → String)
    (calc_checksum : α → String) : Option (PreparedDoc α β γ) :=
  let drafts := list_documents draftsStore (some user_id) none none none
  let du_di : Option String × Option String :=
    match drafts with
    | most_recent :: _ => (some most_recent.draft_uuid, some most_recent.draft_id)
    | [] => (none, none)
  match generate_filename_and_uuid "final" user_id filename_variables field_ids
      ts_string draws with
  | none => none
  | some (filename, document_uuid) =>
    some (prepare_document document_uuid filename sop_id user_id "final" timestamp
      data false session_id sop_metadata field_definitions
      (some (calc_checksum data)) du_di.1 du_di.2)

/-- C8: a final document saved through the manager carries the `draft_uuid`
and `draft_id` of the head of the newest-first draft listing for the same
user and SOP, and empty strings when that listing is empty. -/
theorem C8_submission_draft_backref {α β γ : Type}
    (draftsStore : List RawDoc) (sop_id user_id : String)
    (filename_variables field_ids : List String) (data : α)
    (session_id : Option String) (sop_metadata : Option β)
    (field_definitions : Option γ) (timestamp : PyTimestamp) (ts_string : String)
    (draws : Nat → String) (calc_checksum : α → String) (doc : PreparedDoc α β γ)
    (hsave : manager_save_submission draftsStore sop_id user_id filename_variables
      field_ids data session_id sop_metadata field_definitions timestamp ts_string
      draws calc_checksum = some doc) :
    (∀ m rest, list_documents draftsStore (some user_id) none none none = m :: rest →
      doc.draft_uuid = m.draft_uuid ∧ doc.draft_id = m.draft_id) ∧
    (list_documents draftsStore (some user_id) none none none = [] →
      doc.draft_uuid = "" ∧ doc.draft_id = "") := by
  constructor
  · intro m rest hlist
    unfold manager_save_submission at hsave
    simp only [hlist] at hsave
    split at hsave
    · exact absurd hsave (by simp)
    · rename_i fnuuid filename document_uuid heq
      rw [← Option.some.inj hsave]
      exact ⟨rfl, rfl⟩
  · intro hlist
    unfold manager_save_submission at hsave
    simp only [hlist] at hsave
    split at hsave
    · exact absurd hsave (by simp)
    · rename_i fnuuid filename document_uuid heq
      rw [← Option.some.inj hsave]
      exact ⟨rfl, rfl⟩

/-- Fallback document for extracting the concrete witness value. -/
def dummyPrepared : PreparedDoc Nat Nat Nat :=
  { draft_id := "", draft_uuid := "", filename := "", sop_id := "", user_id := "",
    timestamp := ⟨0, none⟩, form_data := 0, status := "", session_id := none,
    at_context := none, at_type := none, eln_uuid := none, sop_metadata := none,
    field_definitions := none, checksum := none }

/-- The concrete draft store for the C8 witness. -/
def c8store : List RawDoc := [c7doc 100 "draft-u1-p1-20240101_000000-aaaaaaaa"]

/-- The document produced by the concrete C8 save. -/
def c8doc : PreparedDoc Nat Nat Nat :=
  (manager_save_submission c8store "S1" "u1" ["p1"] [] 0 none none none
    ⟨200, none⟩ "20250101_000000" (fun _ => "abcd1234-5678-90ab-cdef-1234567890ab")
    (fun _ => "cs")).getD dummyPrepared

/-- C8 witness: the concrete save carries the most recent draft's uuid and
id. -/
theorem C8_submission_draft_backref_witness :
    c8doc.draft_uuid = "aaaaaaaa" ∧
    c8doc.draft_id = "draft-u1-p1-20240101_000000-aaaaaaaa" := by
  have h := (C8_submission_draft_backref c8store "S1" "u1" ["p1"] [] 0 none none none
    ⟨200, none⟩ "20250101_000000" (fun _ => "abcd1234-5678-90ab-cdef-1234567890ab")
    (fun _ => "cs") c8doc (by decide)).1
  have h2 := h (c7meta 100 "draft-u1-p1-20240101_000000-aaaaaaaa") [] (by decide)
  have hm : (c7meta 100 "draft-u1-p1-20240101_000000-aaaaaaaa").draft_uuid =
      "aaaaaaaa" := by decide
  exact ⟨h2.1.trans hm, h2.2⟩

/-!
## Attachment validation — storage_factory.py `validate_attach_files_request`
## (lines 228-306), storage_base.py `validate_field_exists_in_eln` (540-570),
## storage_local.py `validate_temp_files_exist` (191-213)

The SOP-existence and ELN-existence stages and the ELN load are filesystem
probes; they enter the model as the backend's answers (`sop_exists`,
`eln_exists`, `eln_load`, with `.error true` a `StorageNotFoundError` and
`.error false` any other exception).  The temp-file stage is modelled
concretely: the local backend scans the `drafts/{sop}/attachments` directory
and accepts a filename when the file id, user id and field id each occur as
substrings of the name.  The state is threaded through and returned
unchanged: the validation path performs no copy and no delete.
-/

/-- An entry of a file field's `files` array. -/
structure FileEntry where
  finalPath : String
  originalName : String
  fileId : String
deriving DecidableEq

/-- A file field's value inside `form_data`. -/
structure FieldValue where
  files : Option (List FileEntry)
  uploadedUrls : Option (List String)
deriving DecidableEq

/-- A field definition (`.get('id')`, `.get('type')`). -/
structure FieldDef where
  id : Option String
  type : Option String
deriving DecidableEq

/-- A stored ELN document as the attachment workflow sees it: `form_data`
may be absent (`'form_data' in eln_doc`), `field_definitions` defaults to
`[]`. -/
structure ElnDoc where
  form_data : Option (List (String × FieldValue))
  field_definitions : List FieldDef
deriving DecidableEq

/-- `BaseJSONStorage.validate_field_exists_in_eln`: the raw id in
`form_data`, then the unescaped id in `form_data`, then a `file`-typed field
definition matching either form. -/
def validate_field_exists_in_eln (eln_data : ElnDoc) (field_id : String) : Bool :=
  let form_data := eln_data.form_data.getD []
  if form_data.any (fun kv => kv.1 == field_id) then true
  else
    let unescaped_field_id := unescape_field_id field_id
    if form_data.any (fun kv => kv.1 == unescaped_field_id) then true
    else
      eln_data.field_definitions.any (fun field_def =>
        (field_def.id == some field_id ||
          (unescaped_field_id != "" && field_def.id == some unescaped_field_id)) &&
        field_def.type == some "file")

/-- `LocalJSONStorage.validate_temp_files_exist`: all ids are missing when
the attachments directory does not exist; otherwise an id is found when some
filename in the directory contains the file id, the user id and the field id
as substrings. -/
def validate_temp_files_exist (temp_dir_exists : Bool) (temp_filenames : List String)
    (file_ids : List String) (user_id field_id : String) : List String :=
  if !temp_dir_exists then file_ids
  else
    file_ids.filter (fun file_id =>
      !(temp_filenames.any (fun nm =>
        pyIn file_id nm && pyIn user_id nm && pyIn field_id nm)))

/-- The validation outcome (`valid`, `errors` and the detail keys the claims
mention). -/
structure ValidationResult where
  valid : Bool
  errors : List String
  missing_files : Option (List String)
  missing_count : Option Nat
  validated_files : Option Nat
deriving DecidableEq

/-- The storage state visible to the attachment workflow. -/
structure StorageState where
  temp_dir_exists : Bool
  /-- filenames in `drafts/{sop_id}/attachments/` -/
  temp_filenames : List String
  /-- full keys and documents under the submissions bucket -/
  submissions : List (String × ElnDoc)
  /-- raw attachment keys in the submissions bucket -/
  final_attachment_keys : List String
deriving DecidableEq

/-- `StorageManager.validate_attach_files_request`: the five stages in
order, short-circuiting with a structured result; the state is returned
untouched (the code path contains no copy or delete). -/
def validate_attach_files_request (sop_exists eln_exists : Bool)
    (eln_load : Except Bool ElnDoc) (field_id : String) (file_ids : List String)
    (user_id : String) (st : StorageState) : ValidationResult × StorageState :=
  if !sop_exists then (⟨false, ["sop_not_found"], none, none, none⟩, st)
  else if !eln_exists then (⟨false, ["eln_not_found"], none, none, none⟩, st)
  else
    match eln_load with
    | .error true => (⟨false, ["eln_load_failed"], none, none, none⟩, st)
    | .error false => (⟨false, ["eln_corrupted"], none, none, none⟩, st)
    | .ok eln_data =>
      if !(validate_field_exists_in_eln eln_data field_id) then
        (⟨false, ["field_not_found"], none, none, none⟩, st)
      else
        let missing_files := validate_temp_files_exist st.temp_dir_exists
          st.temp_filenames file_ids user_id field_id
        if !missing_files.isEmpty then
          (⟨false, ["files_not_found"], some missing_files,
            some missing_files.length, none⟩, st)
        else
          (⟨true, [], none, none, some file_ids.length⟩, st)

/-- C5 counterexample state: the single requested file id matches two temp
objects. -/
def c5state : StorageState :=
  { temp_dir_exists := true,
    temp_filenames := ["u1-fld-f1-a.txt", "u1-fld-f1-b.txt"],
    submissions := [], final_attachment_keys := [] }

/-- C5 ELN document: the field is present in `form_data`. -/
def c5eln : ElnDoc := { form_data := some [("fld", ⟨none, none⟩)], field_definitions := [] }

/-- C5: the claim's requirement that each requested file id resolve to
exactly one temp object is false on the code: with two matching temp objects
for `"f1"`, validation succeeds. -/
theorem C5_counterexample :
    (c5state.temp_filenames.filter (fun nm =>
      pyIn "f1" nm && pyIn "u1" nm && pyIn "fld" nm)).length = 2 ∧
    (validate_attach_files_request true true (.ok c5eln) "fld" ["f1"] "u1" c5state).1 =
      ⟨true, [], none, none, some 1⟩ := by
  refine ⟨by decide, by decide⟩

/-- C5 (amended): when the earlier stages pass and at least one requested
file id has no temp object whose filename contains the user id, field id and
file id as substrings, validation returns `valid=false` with
`errors=["files_not_found"]` and `details.missing_files` equal to exactly
the unresolved file ids (in request order), performs no copy and no delete,
and a file id is resolved exactly when at least one temp object matches by
substring containment. -/
theorem C5_validate_missing_files (eln_data : ElnDoc) (field_id : String)
    (file_ids : List String) (user_id : String) (st : StorageState)
    (hfield : validate_field_exists_in_eln eln_data field_id = true)
    (hmiss : validate_temp_files_exist st.temp_dir_exists st.temp_filenames file_ids
      user_id field_id ≠ []) :
    (validate_attach_files_request true true (.ok eln_data) field_id file_ids user_id st).1 =
      ⟨false, ["files_not_found"],
        some (validate_temp_files_exist st.temp_dir_exists st.temp_filenames file_ids
          user_id field_id),
        some (validate_temp_files_exist st.temp_dir_exists st.temp_filenames file_ids
          user_id field_id).length, none⟩ ∧
    (validate_attach_files_request true true (.ok eln_data) field_id file_ids user_id st).2 =
      st ∧
    validate_temp_files_exist st.temp_dir_exists st.temp_filenames file_ids user_id
        field_id =
      (if st.temp_dir_exists then
        file_ids.filter (fun fid => decide (¬ ∃ nm ∈ st.temp_filenames,
          fid.data <:+: nm.data ∧ user_id.data <:+: nm.data ∧ field_id.data <:+: nm.data))
       else file_ids) := by
  have hred : validate_attach_files_request true true (.ok eln_data) field_id file_ids
      user_id st =
      (if !(validate_field_exists_in_eln eln_data field_id) then
        (⟨false, ["field_not_found"], none, none, none⟩, st)
      else
        let missing_files := validate_temp_files_exist st.temp_dir_exists
          st.temp_filenames file_ids user_id field_id
        if !missing_files.isEmpty then
          (⟨false, ["files_not_found"], some missing_files,
            some missing_files.length, none⟩, st)
        else
          (⟨true, [], none, none, some file_ids.length⟩, st)) := rfl
  have hflag : (!(validate_field_exists_in_eln eln_data field_id)) = false := by
    rw [hfield]; rfl
  have hne : (!(validate_temp_files_exist st.temp_dir_exists st.temp_filenames file_ids
      user_id field_id).isEmpty) = true := by
    cases hcase : (validate_temp_files_exist st.temp_dir_exists st.temp_filenames
        file_ids user_id field_id).isEmpty
    · rfl
    · exact absurd (List.isEmpty_iff.mp hcase) hmiss
  rw [hred]
  simp only [hflag, Bool.false_eq_true, if_false, hne, if_true]
  refine ⟨trivial, trivial, ?_⟩
  unfold validate_temp_files_exist
  cases hdir : st.temp_dir_exists
  · rfl
  · simp only [Bool.not_true, Bool.false_eq_true, if_false, if_true]
    apply List.filter_congr
    intro fid _
    simp only [pyIn]
    rw [Bool.eq_iff_iff]
    simp [List.any_eq_true]

/-- C5 witness state: `"f1"` is unresolved, `"f2"` has a matching temp
object. -/
def c5stateW : StorageState :=
  { temp_dir_exists := true, temp_filenames := ["u1-fld-f2-x.txt"],
    submissions := [], final_attachment_keys := [] }

/-- C5 witness: validation reports exactly `["f1"]` missing and leaves the
state untouched. -/
theorem C5_validate_missing_files_witness :
    (validate_attach_files_request true true (.ok c5eln) "fld" ["f1", "f2"] "u1"
      c5stateW).1 = ⟨false, ["files_not_found"], some ["f1"], some 1, none⟩ ∧
    (validate_attach_files_request true true (.ok c5eln) "fld" ["f1", "f2"] "u1"
      c5stateW).2 = c5stateW := by
  have h := C5_validate_missing_files c5eln "fld" ["f1", "f2"] "u1" c5stateW
    (by decide) (by decide)
  exact ⟨h.1.trans (by decide), h.2.1⟩

/-!
## Attachment move and parent patch — storage_base.py `attach_files_to_eln`
## (lines 572-684), file_validation.py `parse_temp_filename_and_unescape`
## (lines 370-399)

Copy and delete are modelled on `StorageState`: a copy appends the final key
to the submissions bucket's raw attachment keys, a delete removes the temp
filename.  The parent-patch stage lists the submissions keys, takes the
first containing the `eln_uuid` as a substring, re-loads the document via
`get_document` and patches the field's `files` array; if no key matches, or
the document cannot be re-loaded, lacks `form_data`, or has no entry for the
unescaped field id, the stage is silently skipped.
-/

/-- `str.split('-', 3)` on character lists. -/
def pySplitDashMax : Nat → List Char → List (List Char)
  | _, [] => [[]]
  | 0, c :: rest => [c :: rest]
  | n + 1, c :: rest =>
    if c = '-' then [] :: pySplitDashMax n rest
    else
      match pySplitDashMax (n + 1) rest with
      | [] => [[c]]
      | h :: t => (c :: h) :: t

/-- `str.split('/')` on character lists. -/
def splitOnSlash : List Char → List (List Char)
  | [] => [[]]
  | c :: rest =>
    if c = '/' then [] :: splitOnSlash rest
    else
      match splitOnSlash rest with
      | [] => [[c]]
      | h :: t => (c :: h) :: t

/-- `key.split('/')[-1]`. -/
def lastPathComponent (key : String) : String :=
  ((splitOnSlash key.data).getLastD []).asString

/-- `str.replace('.json', '')`. -/
def stripJsonOcc : List Char → List Char
  | '.' :: 'j' :: 's' :: 'o' :: 'n' :: rest => stripJsonOcc rest
  | c :: rest => c :: stripJsonOcc rest
  | [] => []

/-- `file_validation.parse_temp_filename_and_unescape`: split into at most 4
parts, unescape the field-id part, reconstruct; anything else is returned
unchanged. -/
def parse_temp_filename_and_unescape (temp_filename : String) : String :=
  let parts := (pySplitDashMax 3 temp_filename.data).map List.asString
  if parts.length ≥ 4 then
    match parts with
    | username :: escaped_field_id :: file_uuid :: [original_filename_with_ext] =>
      username ++ "-" ++ unescape_field_id escaped_field_id ++ "-" ++ file_uuid ++
        "-" ++ original_filename_with_ext
    | _ => temp_filename
  else temp_filename

/-- The final key for a moved file:
`submissions/{sop_id}/attachments/{final_filename}` where the final filename
is `process_temp_filename(temp_key.split('/')[-1])`. -/
def finalKeyFor (sop_id temp_key : String) : String :=
  "submissions/" ++ sop_id ++ "/attachments/" ++
    parse_temp_filename_and_unescape (lastPathComponent temp_key)

/-- The original filename recovered by stripping the known
`{user_id}-{field_id}-{file_id}-` leading part (with the whole temp filename
as a fallback). -/
def originalNameFor (pfx temp_key : String) : String :=
  if pfx.data.isPrefixOf (lastPathComponent temp_key).data then
    ((lastPathComponent temp_key).data.drop pfx.data.length).asString
  else lastPathComponent temp_key

/-- The per-file move loop of `attach_files_to_eln`: find the temp file by
prefix in the drafts bucket (`_list_files_in_bucket`), take the first match,
copy it to the submissions attachment area under the unescaped filename,
delete the temp file; a missing temp file raises. -/
def movePhase (field_id user_id sop_id : String) :
    List String → StorageState → List String → List FileEntry →
    Except String (List String × List FileEntry × StorageState)
  | [], st, final_urls, file_info_list => .ok (final_urls, file_info_list, st)
  | file_id :: rest, st, final_urls, file_info_list =>
    let pfx := user_id ++ "-" ++ field_id ++ "-" ++ file_id ++ "-"
    let file_keys := (st.temp_filenames.filter
      (fun nm => pfx.data.isPrefixOf nm.data)).map
      (fun nm => "drafts/" ++ sop_id ++ "/attachments/" ++ nm)
    match file_keys with
    | [] => .error ("Failed to attach file " ++ file_id)
    | temp_key :: _ =>
      movePhase field_id user_id sop_id rest
        { st with
          final_attachment_keys := st.final_attachment_keys ++ [finalKeyFor sop_id temp_key],
          temp_filenames := st.temp_filenames.erase (lastPathComponent temp_key) }
        (final_urls ++ [finalKeyFor sop_id temp_key])
        (file_info_list ++ [⟨finalKeyFor sop_id temp_key, originalNameFor pfx temp_key, file_id⟩])

/-- Locate the parent ELN: first listed submissions key (for the SOP) whose
key contains the uuid as a substring; its basename is returned. -/
def findElnFilename (subs : List (String × ElnDoc)) (sop_id eln_uuid : String) :
    Option String :=
  (((subs.map (fun kv => kv.1)).filter
      (fun k => ("submissions/" ++ sop_id ++ "/").data.isPrefixOf k.data)).find?
    (fun k => pyIn eln_uuid k)).map lastPathComponent

/-- `get_document("submissions", sop_id, file_basename)` on the modelled
submissions bucket. -/
def get_document_submissions (subs : List (String × ElnDoc))
    (sop_id file_basename : String) : Option ElnDoc :=
  (subs.find? (fun kv =>
    kv.1 == "submissions/" ++ sop_id ++ "/" ++ file_basename ++ ".json")).map
    (fun kv => kv.2)

/-- Patch the field's value: replace `files`, drop `uploadedUrls`. -/
def updateFormData (fd : List (String × FieldValue)) (key : String)
    (file_info_list : List FileEntry) : List (String × FieldValue) :=
  fd.map (fun kv =>
    if kv.1 == key then (kv.1, { files := some file_info_list, uploadedUrls := none })
    else kv)

/-- The parent document with the file field's `files` array replaced and
`uploadedUrls` removed. -/
def patchedDoc (eln_doc : ElnDoc) (fd : List (String × FieldValue))
    (field_id : String) (file_info_list : List FileEntry) : ElnDoc :=
  { eln_doc with form_data := some (updateFormData fd (unescape_field_id field_id) file_info_list) }

/-- Write a document into the submissions bucket at a key. -/
def putSubmission (subs : List (String × ElnDoc)) (key : String) (doc : ElnDoc) :
    List (String × ElnDoc) :=
  subs.filter (fun kv => !(kv.1 == key)) ++ [(key, doc)]

/-- The parent-patch stage of `attach_files_to_eln` (lines 644-682): locate
the parent, re-load it, patch the file field, and re-save through
`_store_document` (whose constraint check uses the backend instance's own
`document_type`); every guard failure skips silently. -/
def updatePhase (self_document_type : String) (eln_uuid field_id sop_id : String)
    (file_info_list : List FileEntry) (st : StorageState) : Except String StorageState :=
  match findElnFilename st.submissions sop_id eln_uuid with
  | none => .ok st
  | some eln_filename =>
    match get_document_submissions st.submissions sop_id
        ((stripJsonOcc eln_filename.data).asString) with
    | none => .ok st
    | some eln_doc =>
      match eln_doc.form_data with
      | none => .ok st
      | some fd =>
        if fd.any (fun kv => kv.1 == unescape_field_id field_id) then
          if !(validate_storage_constraints self_document_type
              (st.submissions.any
                (fun kv => kv.1 == "submissions/" ++ sop_id ++ "/" ++ eln_filename))) then
            .error "Files were moved but failed to update ELN document"
          else
            .ok { st with submissions := putSubmission st.submissions ("submissions/" ++ sop_id ++ "/" ++ eln_filename) (patchedDoc eln_doc fd field_id file_info_list) }
        else .ok st

/-- `BaseJSONStorage.attach_files_to_eln`: move each file, then patch the
parent document when at least one file was moved. -/
def attach_files_to_eln (self_document_type : String) (eln_uuid field_id : String)
    (file_ids : List String) (user_id sop_id : String) (st : StorageState) :
    Except String (List String × StorageState) :=
  match movePhase field_id user_id sop_id file_ids st [] [] with
  | .error e => .error e
  | .ok (final_urls, file_info_list, st1) =>
    if final_urls.isEmpty && !file_ids.isEmpty then
      .error "No files could be attached."
    else if !final_urls.isEmpty then
      match updatePhase self_document_type eln_uuid field_id sop_id file_info_list st1 with
      | .error e => .error e
      | .ok st2 => .ok (final_urls, st2)
    else .ok (final_urls, st1)

/-- The move phase never touches the submissions bucket's documents. -/
theorem movePhase_submissions (field_id user_id sop_id : String) :
    ∀ (fids : List String) (st : StorageState) (urls : List String)
      (infos : List FileEntry) (urls' : List String) (infos' : List FileEntry)
      (st' : StorageState),
      movePhase field_id user_id sop_id fids st urls infos = .ok (urls', infos', st') →
      st'.submissions = st.submissions := by
  intro fids
  induction fids with
  | nil =>
    intro st urls infos urls' infos' st' h
    rw [movePhase] at h
    have := (Except.ok.inj h)
    rw [← (Prod.mk.inj (Prod.mk.inj this).2).2]
  | cons fid rest ih =>
    intro st urls infos urls' infos' st' h
    rw [movePhase] at h
    split at h
    · exact absurd h (by simp)
    · have h2 := ih _ _ _ _ _ _ h
      exact h2

/-- Each moved file contributes exactly one returned url. -/
theorem movePhase_length (field_id user_id sop_id : String) :
    ∀ (fids : List String) (st : StorageState) (urls : List String)
      (infos : List FileEntry) (urls' : List String) (infos' : List FileEntry)
      (st' : StorageState),
      movePhase field_id user_id sop_id fids st urls infos = .ok (urls', infos', st') →
      urls'.length = urls.length + fids.length := by
  intro fids
  induction fids with
  | nil =>
    intro st urls infos urls' infos' st' h
    rw [movePhase] at h
    have := (Except.ok.inj h)
    rw [← (Prod.mk.inj this).1]
    simp
  | cons fid rest ih =>
    intro st urls infos urls' infos' st' h
    rw [movePhase] at h
    split at h
    · exact absurd h (by simp)
    · have h2 := ih _ _ _ _ _ _ h
      rw [h2]
      simp
      omega

/-- C10: when every requested temp file is moved successfully but no
submissions key contains the `eln_uuid` as a substring — or the located
parent cannot be re-loaded, lacks `form_data`, or has no `form_data` entry
for the unescaped field id — `attach_files_to_eln` returns the list of final
keys without raising and without modifying any stored document: the
parent-patching stage is silently skipped. -/
theorem C10_attach_skips_patch (self_document_type eln_uuid field_id user_id sop_id : String)
    (file_ids : List String) (st st1 : StorageState) (urls : List String)
    (infos : List FileEntry)
    (hmove : movePhase field_id user_id sop_id file_ids st [] [] = .ok (urls, infos, st1))
    (hskip : ∀ eln_filename,
      findElnFilename st1.submissions sop_id eln_uuid = some eln_filename →
      ∀ eln_doc, get_document_submissions st1.submissions sop_id
        ((stripJsonOcc eln_filename.data).asString) = some eln_doc →
      ∀ fd, eln_doc.form_data = some fd →
      fd.any (fun kv => kv.1 == unescape_field_id field_id) = false) :
    attach_files_to_eln self_document_type eln_uuid field_id file_ids user_id sop_id st =
      .ok (urls, st1) ∧
    st1.submissions = st.submissions := by
  have hsub := movePhase_submissions field_id user_id sop_id file_ids st [] [] urls infos
    st1 hmove
  refine ⟨?_, hsub⟩
  have hupd : updatePhase self_document_type eln_uuid field_id sop_id infos st1 =
      .ok st1 := by
    unfold updatePhase
    split
    · rfl
    · rename_i fn hfind
      split
      · rfl
      · rename_i d hdoc
        split
        · rfl
        · rename_i fd hfd
          rw [hskip fn hfind d hdoc fd hfd]
          rfl
  unfold attach_files_to_eln
  rw [hmove]
  cases urls with
  | nil =>
    have hlen := movePhase_length field_id user_id sop_id file_ids st [] [] [] infos
      st1 hmove
    have hfe : file_ids = [] := by
      apply List.eq_nil_of_length_eq_zero
      simp at hlen
      omega
    subst hfe
    rfl
  | cons u us =>
    show (match updatePhase self_document_type eln_uuid field_id sop_id infos st1 with
      | Except.error e => (Except.error e : Except String (List String × StorageState))
      | Except.ok st2 => Except.ok (u :: us, st2)) = Except.ok (u :: us, st1)
    rw [hupd]

deriving instance DecidableEq for Except

/-- The C10 witness state: one temp file for the request, one submission
whose key does not contain the uuid. -/
def c10state : StorageState :=
  { temp_dir_exists := true,
    temp_filenames := ["u1-fld1-f1-doc.txt"],
    submissions := [("submissions/S1/final-u1-x-20240101_000000-bbbb1111.json",
      ⟨some [("fld1", ⟨none, none⟩)], []⟩)],
    final_attachment_keys := [] }

/-- The state after the move phase of the C10 witness. -/
def c10state1 : StorageState :=
  { c10state with
    temp_filenames := [],
    final_attachment_keys := ["submissions/S1/attachments/u1-fld1-f1-doc.txt"] }

/-- C10 witness: the uuid `"deadbeef"` matches no submissions key; the file
is moved, the final key returned, and the stored documents are untouched. -/
theorem C10_attach_skips_patch_witness :
    attach_files_to_eln "drafts" "deadbeef" "fld1" ["f1"] "u1" "S1" c10state =
      .ok (["submissions/S1/attachments/u1-fld1-f1-doc.txt"], c10state1) ∧
    c10state1.submissions = c10state.submissions := by
  refine C10_attach_skips_patch "drafts" "deadbeef" "fld1" "u1" "S1" ["f1"] c10state
    c10state1 ["submissions/S1/attachments/u1-fld1-f1-doc.txt"]
    [⟨"submissions/S1/attachments/u1-fld1-f1-doc.txt", "doc.txt", "f1"⟩]
    (by decide) ?_
  intro fn hfn d hdoc fd hfd
  have hnone : findElnFilename c10state1.submissions "S1" "deadbeef" = none := by decide
  rw [hnone] at hfn
  exact Option.noConfusion hfn
